import Mathlib

/-!
The reconcile protocol of the NFS and Docker service resources of
terraform-provider-trueform.

A shallow embedding of `internal/resources/service_nfs.go` and
`internal/resources/service_docker.go`, together with the error classifier of
`internal/client` (known here only through `errors_test.go` and the
specification).

Conventions of the embedding:

* JSON numbers are exact decimals: `JSON.num n` is a number written as an
  integer, `JSON.real m e` the number m × 10^e.  Decoding a number into
  `float64` rounds it to the nearest double, ties to even (`roundFloat64`),
  and `int64(x)` truncates toward zero (`int64`).
* A Go `map[string]interface{}` is an association list read with
  `lookupKey` and written with `setKey`.
* A framework value (`types.Bool`, `types.Int64`, `types.String`,
  `types.List`) is a tri-state `Attr`.
* The appliance and the clock are an oracle `Remote`: a function of the
  history so far and the operation requested.  Every operation is appended to
  the history together with the error it returned to the resource.
-/

set_option autoImplicit false

namespace Trueform

/-! Values on the wire -/

/-- JSON values on the wire.  A number is exact: `num n` is a number written as an
integer, `real m e` a number written with a fraction or an exponent, m × 10^e. -/
inductive JSON where
  | null
  | bool (b : Bool)
  | num (n : Int)
  | real (mantissa : Int) (exponent : Int)
  | str (s : String)
  | arr (xs : List JSON)
  | obj (kvs : List (String × JSON))

/-- A finite `float64`: the value (-1)^neg × mant × 2^exp, with mant below 2^53 unless the
rounding carried into 2^53. -/
structure Float64 where
  neg : Bool
  mant : Nat
  exp : Int

/-- The loop of `floorLog2`, one halving per unit of fuel. -/
def log2Loop : Nat → Nat → Nat
  | 0, _ => 0
  | fuel + 1, n => if 2 ≤ n then log2Loop fuel (n / 2) + 1 else 0

/-- The position of the highest bit of a positive number. -/
def floorLog2 (n : Nat) : Nat := log2Loop n n

/-- The integer part of the binary logarithm of a/b, for positive a and b. -/
def floorLog2Ratio (a b : Nat) : Int :=
  let l : Int := (floorLog2 a : Int) - (floorLog2 b : Int)
  if b * 2 ^ l.toNat ≤ a * 2 ^ (-l).toNat then l else l - 1

/-- The `float64` nearest to ± a/b, ties to the even mantissa, as `strconv.ParseFloat`
gives it to `encoding/json`; `none` when the number is beyond the range of `float64`,
which is a decoding error. -/
def roundFloat64 (neg : Bool) (a b : Nat) : Option Float64 :=
  if a = 0 then some { neg := neg, mant := 0, exp := 0 }
  else
    let e : Int := max (floorLog2Ratio a b - 52) (-1074)
    let num := a * 2 ^ (-e).toNat
    let den := b * 2 ^ e.toNat
    let m := num / den
    let r := num % den
    let m := if den < 2 * r ∨ (2 * r = den ∧ m % 2 = 1) then m + 1 else m
    if 971 < e ∨ (e = 971 ∧ 2 ^ 53 ≤ m) then none
    else some { neg := neg, mant := m, exp := e }

/-- The `float64` a JSON number decodes to; `none` for a value that is not a number and
for a number beyond the range of `float64`. -/
def float64Of : JSON → Option Float64
  | JSON.num n => roundFloat64 (decide (n < 0)) n.natAbs 1
  | JSON.real m e =>
    roundFloat64 (decide (m < 0)) (m.natAbs * 10 ^ e.toNat) (10 ^ (-e).toNat)
  | _ => none

/-- The conversion `int64(x)` of a `float64`: the fraction is dropped (truncation toward
zero).  For a value outside the range of `int64` Go leaves the result to the
implementation; the embedding takes the result of amd64, the least `int64`. -/
def int64 (f : Float64) : Int :=
  let magnitude : Nat := f.mant * 2 ^ f.exp.toNat / 2 ^ (-f.exp).toNat
  let v : Int := if f.neg then -(magnitude : Int) else magnitude
  if -9223372036854775808 ≤ v ∧ v < 9223372036854775808 then v else -9223372036854775808

mutual
/-- Every number inside a value is within the range of `float64`: what decoding the value
into `interface{}` needs, numbers being decoded into `float64` there. -/
def fitsFloat64 : JSON → Bool
  | JSON.num n => (float64Of (JSON.num n)).isSome
  | JSON.real m e => (float64Of (JSON.real m e)).isSome
  | JSON.arr xs => allFit xs
  | JSON.obj kvs => allFieldsFit kvs
  | _ => true
/-- Every element of an array fits. -/
def allFit : List JSON → Bool
  | [] => true
  | x :: xs => fitsFloat64 x && allFit xs
/-- Every field of an object fits. -/
def allFieldsFit : List (String × JSON) → Bool
  | [] => true
  | (_, v) :: rest => fitsFloat64 v && allFieldsFit rest
end

/-- Go map with string keys: association list, first binding wins. -/
abbrev GoMap := List (String × JSON)

/-- Map read `m[k]` with the comma-ok result. -/
def lookupKey (k : String) : GoMap → Option JSON
  | [] => none
  | (k', v) :: rest => if k' = k then some v else lookupKey k rest

/-- Map write `m[k] = v`: overwrite the binding of `k` or add one. -/
def setKey (k : String) (v : JSON) : GoMap → GoMap
  | [] => [(k, v)]
  | (k', v') :: rest => if k' = k then (k, v) :: rest else (k', v') :: setKey k v rest

/-- Type assertion `x.(string)` on the result of a map read. -/
def asString : Option JSON → Option String
  | some (JSON.str s) => some s
  | _ => none

/-- Type assertion `x.(bool)` on the result of a map read. -/
def asBool : Option JSON → Option Bool
  | some (JSON.bool b) => some b
  | _ => none

/-- Type assertion `x.(float64)` on the result of a map read: a number, as the `float64`
it was decoded to. -/
def asFloat64 : Option JSON → Option Float64
  | some v => float64Of v
  | none => none

/-- Type assertion `x.([]interface{})` on the result of a map read. -/
def asSlice : Option JSON → Option (List JSON)
  | some (JSON.arr xs) => some xs
  | _ => none

/-! Errors -/

/-- Go `error` values that reach the resources. -/
inductive GoError where
  /-- A `*client.APIError`. -/
  | api (code : Int) (message : String) (details : String)
  /-- Any other error: `errors.New`, a connection error, a decoding error. -/
  | other (msg : String)
  /-- The error built by `fmt.Errorf("<context>%w", inner)`. -/
  | wrap (context : String) (inner : GoError)

/-- Decimal rendering of an integer, as the verb `%d` prints it. -/
def renderInt (c : Int) : String :=
  if c < 0 then "-" ++ toString c.natAbs else toString c.natAbs

/-- Modelled from the spec: `APIError.Error()` of `internal/client/errors.go`, which is
not part of the sources; section 4.2 and the table of `TestAPIError` give the rendering
`TrueNAS API error <code>: <message>` with ` (<details>)` appended when details are present. -/
def APIError.Error (code : Int) (message details : String) : String :=
  if details = "" then "TrueNAS API error " ++ renderInt code ++ ": " ++ message
  else "TrueNAS API error " ++ renderInt code ++ ": " ++ message ++ " (" ++ details ++ ")"

/-- The method `Error()` of an error value. -/
def GoError.Error : GoError → String
  | GoError.api c m d => APIError.Error c m d
  | GoError.other msg => msg
  | GoError.wrap context inner => context ++ inner.Error

/-- Modelled from the spec: the constant `ErrCodeNotAuthenticated` of
`internal/client/errors.go`, which is not part of the sources; section 4.2 gives the value,
and `TestAPIError` renders it as 1. -/
def ErrCodeNotAuthenticated : Int := 1

/-- Modelled from the spec: the constant `ErrCodeNotAuthorized` of the absent
`internal/client/errors.go`; section 4.2, rendered as 2 in `TestAPIError`. -/
def ErrCodeNotAuthorized : Int := 2

/-- Modelled from the spec: the constant `ErrCodeNotFound` of the absent
`internal/client/errors.go`; section 4.2, rendered as 3 in `TestAPIError`. -/
def ErrCodeNotFound : Int := 3

/-- Modelled from the spec: the constant `ErrCodeValidation` of the absent
`internal/client/errors.go`; section 4.2, rendered as 4 in `TestAPIError`. -/
def ErrCodeValidation : Int := 4

/-- Modelled from the spec: the constant `ErrCodeInternalError` of the absent
`internal/client/errors.go`; section 4.2, rendered as -32603 in `TestAPIError`. -/
def ErrCodeInternalError : Int := -32603

/-- The taxonomy of section 4.2. -/
inductive Taxonomy where
  | notAuthenticated
  | notAuthorized
  | notFound
  | validation
  | internal
  | unclassified
  deriving DecidableEq

/-- Modelled from the spec: the fixed mapping from code to taxonomy of section 4.2, whose
code in `internal/client/errors.go` is not part of the sources. -/
def classify (code : Int) : Taxonomy :=
  if code = ErrCodeNotAuthenticated then Taxonomy.notAuthenticated
  else if code = ErrCodeNotAuthorized then Taxonomy.notAuthorized
  else if code = ErrCodeNotFound then Taxonomy.notFound
  else if code = ErrCodeValidation then Taxonomy.validation
  else if code = ErrCodeInternalError then Taxonomy.internal
  else Taxonomy.unclassified

/-- Modelled from the spec: `IsNotFoundError` of the absent `internal/client/errors.go`.
Section 4.2: true iff the error is a classified error with taxonomy not-found; nil-safe,
false for any other error. -/
def IsNotFoundError : Option GoError → Bool
  | some (GoError.api code _ _) => decide (classify code = Taxonomy.notFound)
  | _ => false

/-- Modelled from the spec: `IsAuthError` of the absent `internal/client/errors.go`.
Section 4.2: true iff the taxonomy is not-authenticated or not-authorized. -/
def IsAuthError : Option GoError → Bool
  | some (GoError.api code _ _) =>
    decide (classify code = Taxonomy.notAuthenticated) ||
      decide (classify code = Taxonomy.notAuthorized)
  | _ => false

/-- Modelled from the spec: `IsValidationError` of the absent `internal/client/errors.go`.
Section 4.2: true iff the taxonomy is validation. -/
def IsValidationError : Option GoError → Bool
  | some (GoError.api code _ _) => decide (classify code = Taxonomy.validation)
  | _ => false

/-- Modelled from the spec: the struct `JSONRPCError` of `internal/client`, which is not
part of the sources.  Sections 3 and 6: a code, a message and an optional opaque data
payload, a JSON value. -/
structure JSONRPCError where
  Code : Int
  Message : String
  Data : Option JSON

/-- Modelled from the spec: the struct `APIError` of the absent
`internal/client/errors.go`, with the fields `TestAPIError` and `TestNewAPIError` read. -/
structure APIError where
  Code : Int
  Message : String
  Details : String

/-- Modelled from the spec: `NewAPIError` of the absent `internal/client/errors.go`.
Section 4.2: code and message are copied verbatim; a data payload is re-serialized to its
canonical textual form and stored as details, which are empty when there is no payload.
The encoder that gives the canonical text of a value is the parameter `canonicalText`. -/
def NewAPIError (canonicalText : JSON → String) (rpcErr : JSONRPCError) : APIError :=
  { Code := rpcErr.Code
    Message := rpcErr.Message
    Details :=
      match rpcErr.Data with
      | some data => canonicalText data
      | none => "" }

/-- The error value of an `APIError`. -/
def APIError.toGoError (e : APIError) : GoError := GoError.api e.Code e.Message e.Details

/-- The characters of a string between double quotes, with `"` and `\` escaped. -/
def quoteChars : List Char → List Char
  | [] => []
  | c :: rest =>
    if c = '"' ∨ c = '\\' then '\\' :: c :: quoteChars rest else c :: quoteChars rest

/-- A string as compact JSON text. -/
def quote (s : String) : String := "\"" ++ String.mk (quoteChars s.data) ++ "\""

mutual
/-- A value as compact JSON text: the encoder used for the rows of `TestNewAPIError`. -/
def compactText : JSON → String
  | JSON.null => "null"
  | JSON.bool b => if b then "true" else "false"
  | JSON.num n => renderInt n
  | JSON.real m e => renderInt m ++ "e" ++ renderInt e
  | JSON.str s => quote s
  | JSON.arr xs => "[" ++ compactElems xs ++ "]"
  | JSON.obj kvs => "\x7b" ++ compactFields kvs ++ "\x7d"
/-- The elements of an array, separated by commas. -/
def compactElems : List JSON → String
  | [] => ""
  | [x] => compactText x
  | x :: y :: rest => compactText x ++ "," ++ compactElems (y :: rest)
/-- The fields of an object, separated by commas. -/
def compactFields : List (String × JSON) → String
  | [] => ""
  | [(k, v)] => quote k ++ ":" ++ compactText v
  | (k, v) :: kv :: rest => quote k ++ ":" ++ compactText v ++ "," ++ compactFields (kv :: rest)
end

/-! Framework values and diagnostics -/

/-- Tri-state framework value: null, unknown or known. -/
inductive Attr (α : Type) where
  | null
  | unknown
  | known (v : α)

namespace Attr

def IsNull {α : Type} : Attr α → Bool
  | null => true
  | _ => false

def IsUnknown {α : Type} : Attr α → Bool
  | unknown => true
  | _ => false

/-- The accessor `ValueBool`: false for null and unknown. -/
def ValueBool : Attr Bool → Bool
  | known b => b
  | _ => false

/-- The accessor `ValueInt64`: zero for null and unknown. -/
def ValueInt64 : Attr Int → Int
  | known n => n
  | _ => 0

/-- The accessor `ValueString`: empty for null and unknown. -/
def ValueString : Attr String → String
  | known s => s
  | _ => ""

/-- The accessor `Elements` of a list value: empty for null and unknown. -/
def ValueElements {α : Type} : Attr (List α) → List α
  | known xs => xs
  | _ => []

end Attr

inductive Severity where
  | error
  | warning
  deriving DecidableEq

structure Diagnostic where
  severity : Severity
  summary : String
  detail : String

abbrev Diagnostics := List Diagnostic

/-- The method `Diagnostics.HasError`. -/
def HasError (ds : Diagnostics) : Bool :=
  ds.any (fun d => decide (d.severity = Severity.error))

/-- The method `Diagnostics.AddError`. -/
def AddError (ds : Diagnostics) (summary detail : String) : Diagnostics :=
  ds ++ [{ severity := Severity.error, summary := summary, detail := detail }]

/-- What an operation did to the response state. -/
inductive StateAction (μ : Type) where
  /-- The response state was not touched: it is what it was on entry. -/
  | unchanged
  /-- The call `resp.State.RemoveResource`. -/
  | removed
  /-- The call `resp.State.Set`. -/
  | set (model : μ)

/-- The response of a lifecycle operation. -/
structure Response (μ : Type) where
  diags : Diagnostics
  state : StateAction μ

/-- The result of `req.Plan.Get` or `req.State.Get`: the decoded model and the diagnostics. -/
structure Source (μ : Type) where
  value : μ
  getDiags : Diagnostics

/-! The appliance -/

/-- Operations a resource performs on the outside world. -/
inductive Op where
  /-- The call `client.Call(ctx, method, params, &result)`. -/
  | call (method : String) (params : List JSON)
  /-- The call `client.WaitForJob(ctx, jobID, timeout)`, timeout in nanoseconds. -/
  | waitForJob (jobID : Int) (timeout : Nat)
  /-- The call `time.Sleep(d)`, in nanoseconds. -/
  | sleep (d : Nat)

/-- One entry of the history: the operation and the error it returned, if any. -/
structure Step where
  op : Op
  err : Option GoError

/-- The world as a resource sees it: monotonic clock (nanoseconds) and history. -/
structure World where
  now : Nat
  trace : List Step

/-- What the outside answers: a result or an error, and the time the operation took
(for a sleep, the time beyond the requested duration). -/
structure Reply where
  result : Except GoError JSON
  elapsed : Nat

/-- The appliance, the network and the scheduler, as an oracle. -/
abbrev Remote := World → Op → Reply

/-- The error a result carries, if any. -/
def errorOf {α : Type} : Except GoError α → Option GoError
  | Except.error e => some e
  | Except.ok _ => none

/-- Modelled from the spec: `client.Call` of `internal/client`, which is not part of the
sources.  Section 4.1: the call is sent, and the response is either an error, returned to the
caller, or a result that is deserialized into the typed output slot.  `unmarshal` is the
decoder of that slot; the spec is silent on a result that does not fit the slot, and the
embedding returns the decoder's error as the error of the call, which is what
`json.Unmarshal` reports for such a result. -/
def Call {α : Type} (R : Remote) (w : World) (method : String) (params : List JSON)
    (unmarshal : JSON → Except GoError α) : Except GoError α × World :=
  let reply := R w (Op.call method params)
  let out : Except GoError α :=
    match reply.result with
    | Except.error e => Except.error e
    | Except.ok v => unmarshal v
  (out, { now := w.now + reply.elapsed
          trace := w.trace ++ [{ op := Op.call method params, err := errorOf out }] })

/-- Modelled from the spec: `client.WaitForJob` of `internal/client`, which is not part of
the sources.  Section 4.3: it returns the job's result, or an error on failure, timeout or
cancellation; its own polling is internal to it. -/
def WaitForJob (R : Remote) (w : World) (jobID : Int) (timeout : Nat) :
    Except GoError JSON × World :=
  let reply := R w (Op.waitForJob jobID timeout)
  (reply.result, { now := w.now + reply.elapsed
                   trace := w.trace ++
                     [{ op := Op.waitForJob jobID timeout, err := errorOf reply.result }] })

/-- The call `time.Sleep(d)`: the clock advances by at least `d`. -/
def Sleep (R : Remote) (w : World) (d : Nat) : World :=
  { now := w.now + d + (R w (Op.sleep d)).elapsed
    trace := w.trace ++ [{ op := Op.sleep d, err := none }] }

/-- Decoding into a nil result slot: the result is discarded. -/
def unmarshalNil (_ : JSON) : Except GoError Unit := Except.ok ()

/-- Decoding into `map[string]interface{}`: an object fills the map, `null` leaves it nil,
anything else is a type error; so is a number inside the object that is beyond the range
of `float64`. -/
def unmarshalMap : JSON → Except GoError GoMap
  | JSON.obj kvs =>
    if allFieldsFit kvs then Except.ok kvs
    else Except.error (GoError.other "json: cannot unmarshal number into float64")
  | JSON.null => Except.ok []
  | _ => Except.error (GoError.other "json: cannot unmarshal value into a map")

/-- Decoding the elements of a `[]map[string]interface{}`. -/
def unmarshalMapElems : List JSON → Except GoError (List GoMap)
  | [] => Except.ok []
  | x :: xs =>
    match unmarshalMap x, unmarshalMapElems xs with
    | Except.ok m, Except.ok ms => Except.ok (m :: ms)
    | Except.error e, _ => Except.error e
    | _, Except.error e => Except.error e

/-- Decoding into `[]map[string]interface{}`: an array of objects fills the slice, `null`
leaves it nil, anything else is a type error. -/
def unmarshalMaps : JSON → Except GoError (List GoMap)
  | JSON.arr xs => unmarshalMapElems xs
  | JSON.null => Except.ok []
  | _ => Except.error (GoError.other "json: cannot unmarshal value into a slice of maps")

/-- Decoding into `float64`: a number fills it with the nearest `float64`, `null` leaves
it zero, anything else is a type error; so is a number beyond the range of `float64`. -/
def unmarshalFloat64 : JSON → Except GoError Float64
  | JSON.null => Except.ok { neg := false, mant := 0, exp := 0 }
  | v =>
    match float64Of v with
    | some f => Except.ok f
    | none => Except.error (GoError.other "json: cannot unmarshal value into float64")

/-! The NFS service resource (`service_nfs.go`) -/

/-- The struct `ServiceNFSResourceModel`. -/
structure ServiceNFSResourceModel where
  ID : Attr String
  Enabled : Attr Bool
  Servers : Attr Int
  UDPEnabled : Attr Bool
  V4 : Attr Bool
  V4V3Owner : Attr Bool
  V4Krb : Attr Bool
  Bindip : Attr (List (Attr String))
  MountdPort : Attr Int
  RpclockdPort : Attr Int
  AllowNonroot : Attr Bool
  ManagedNFSv4ACL : Attr Bool

/-- The method `types.List.ElementsAs` into a `[]string` without unhandled values: every
element has to be a known string, otherwise the target stays nil and an error diagnostic
is returned. -/
def ElementsAs : List (Attr String) → List String × Diagnostics
  | [] => ([], [])
  | Attr.known s :: rest =>
    match ElementsAs rest with
    | (ss, []) => (s :: ss, [])
    | (_, d :: ds) => ([], d :: ds)
  | _ :: _ =>
    ([], [{ severity := Severity.error
            summary := "Value Conversion Error"
            detail := "unhandled null or unknown value" }])

/-- The second parameter of `service.start`, `service.stop` and `service.restart`. -/
def silentFalse : JSON := JSON.obj [("silent", JSON.bool false)]

/-- The filter sent to `service.query`. -/
def nfsFilter : JSON :=
  JSON.arr [JSON.arr [JSON.str "service", JSON.str "=", JSON.str "nfs"]]

/-- The statement `if cond { m[k] = v }`. -/
def setKeyIf (cond : Bool) (k : String) (v : JSON) (m : GoMap) : GoMap :=
  if cond then setKey k v m else m

/-- The block of `buildConfigData` for `bindip`: conversion of the list with `ElementsAs`,
its diagnostics appended, and the key written when the diagnostics hold no error. -/
def setBindip (bindip : Attr (List (Attr String))) (configData : GoMap)
    (diagnostics : Diagnostics) : GoMap × Diagnostics :=
  if !bindip.IsNull && !bindip.IsUnknown then
    let (bindips, diags) :=
      match bindip with
      | Attr.known elems => ElementsAs elems
      | _ => ([], [])
    let diagnostics := diagnostics ++ diags
    if !HasError diagnostics then
      (setKey "bindip" (JSON.arr (bindips.map JSON.str)) configData, diagnostics)
    else (configData, diagnostics)
  else (configData, diagnostics)

/-- The method `ServiceNFSResource.buildConfigData`: the payload and the diagnostics. -/
def buildConfigData (plan : ServiceNFSResourceModel) (diagnostics : Diagnostics) :
    GoMap × Diagnostics :=
  let configData : GoMap := []
  let configData :=
    setKeyIf (!plan.Servers.IsNull && !plan.Servers.IsUnknown)
      "servers" (JSON.num plan.Servers.ValueInt64) configData
  let configData :=
    setKeyIf (!plan.UDPEnabled.IsNull && !plan.UDPEnabled.IsUnknown)
      "udp" (JSON.bool plan.UDPEnabled.ValueBool) configData
  let configData :=
    setKeyIf (!plan.V4.IsNull && !plan.V4.IsUnknown)
      "v4" (JSON.bool plan.V4.ValueBool) configData
  let configData :=
    setKeyIf (!plan.V4V3Owner.IsNull && !plan.V4V3Owner.IsUnknown)
      "v4_v3owner" (JSON.bool plan.V4V3Owner.ValueBool) configData
  let configData :=
    setKeyIf (!plan.V4Krb.IsNull && !plan.V4Krb.IsUnknown)
      "v4_krb" (JSON.bool plan.V4Krb.ValueBool) configData
  let (configData, diagnostics) := setBindip plan.Bindip configData diagnostics
  let configData :=
    setKeyIf (!plan.MountdPort.IsNull && !plan.MountdPort.IsUnknown)
      "mountd_port" (JSON.num plan.MountdPort.ValueInt64) configData
  let configData :=
    setKeyIf (!plan.RpclockdPort.IsNull && !plan.RpclockdPort.IsUnknown)
      "rpcstatd_port" (JSON.num plan.RpclockdPort.ValueInt64) configData
  let configData :=
    setKeyIf (!plan.AllowNonroot.IsNull && !plan.AllowNonroot.IsUnknown)
      "allow_nonroot" (JSON.bool plan.AllowNonroot.ValueBool) configData
  let configData :=
    setKeyIf (!plan.ManagedNFSv4ACL.IsNull && !plan.ManagedNFSv4ACL.IsUnknown)
      "managed_nfsv4_acl" (JSON.bool plan.ManagedNFSv4ACL.ValueBool) configData
  (configData, diagnostics)

/-- How a Go function call ends: with its results, or with a runtime panic. -/
inductive Completion (α : Type) where
  | returned (a : α)
  | panicked (msg : String)

/-- The loop of `readService` over the decoded `bindip` array: `ips[i] = ip.(string)`,
a type assertion without comma-ok, which panics on an element that is not a string. -/
def assertStrings : List JSON → Option (List String)
  | [] => some []
  | JSON.str s :: rest =>
    match assertStrings rest with
    | some ss => some (s :: ss)
    | none => none
  | _ :: _ => none

/-- The statement `if v, ok := x.(T); ok { assign v }` on the model. -/
def assignIf {α μ : Type} (x : Option α) (assign : α → μ → μ) (model : μ) : μ :=
  match x with
  | some v => assign v model
  | none => model

/-- The second half of `readService`: mapping of the decoded config onto the model. -/
def mapConfig (config : GoMap) (model : ServiceNFSResourceModel) :
    Completion ServiceNFSResourceModel :=
  let model := assignIf (asFloat64 (lookupKey "servers" config))
    (fun servers m => { m with Servers := Attr.known (int64 servers) }) model
  let model := assignIf (asBool (lookupKey "udp" config))
    (fun udp m => { m with UDPEnabled := Attr.known udp }) model
  let model := assignIf (asBool (lookupKey "v4" config))
    (fun v4 m => { m with V4 := Attr.known v4 }) model
  let model := assignIf (asBool (lookupKey "v4_v3owner" config))
    (fun v4v3owner m => { m with V4V3Owner := Attr.known v4v3owner }) model
  let model := assignIf (asBool (lookupKey "v4_krb" config))
    (fun v4krb m => { m with V4Krb := Attr.known v4krb }) model
  let afterBindip : Completion ServiceNFSResourceModel :=
    match asSlice (lookupKey "bindip" config) with
    | some bindip =>
      match assertStrings bindip with
      | some ips => Completion.returned { model with Bindip := Attr.known (ips.map Attr.known) }
      | none => Completion.panicked "interface conversion: interface is not string"
    | none => Completion.returned model
  match afterBindip with
  | Completion.panicked msg => Completion.panicked msg
  | Completion.returned model =>
    let model := assignIf (asFloat64 (lookupKey "mountd_port" config))
      (fun mountdPort m => { m with MountdPort := Attr.known (int64 mountdPort) }) model
    let model := assignIf (asFloat64 (lookupKey "rpcstatd_port" config))
      (fun rpcstatdPort m =>
        { m with RpclockdPort := Attr.known (int64 rpcstatdPort) }) model
    let model := assignIf (asBool (lookupKey "allow_nonroot" config))
      (fun allowNonroot m => { m with AllowNonroot := Attr.known allowNonroot }) model
    let model := assignIf (asBool (lookupKey "managed_nfsv4_acl" config))
      (fun managedNfsv4Acl m => { m with ManagedNFSv4ACL := Attr.known managedNfsv4Acl }) model
    Completion.returned model

/-- The assignment of `model.Enabled` in `readService` from the decoded `services`. -/
def mapServiceState (services : List GoMap) (model : ServiceNFSResourceModel) :
    ServiceNFSResourceModel :=
  match services with
  | first :: _ =>
    match asString (lookupKey "state" first) with
    | some state => { model with Enabled := Attr.known (decide (state = "RUNNING")) }
    | none => model
  | [] => model

/-- The method `ServiceNFSResource.readService`: the error returned (or the panic), the
model as the function left it, and the world afterwards. -/
def readService (R : Remote) (w : World) (model : ServiceNFSResourceModel) :
    Completion (Option GoError × ServiceNFSResourceModel) × World :=
  match Call R w "nfs.config" [] unmarshalMap with
  | (Except.error err, w1) =>
    (Completion.returned (some (GoError.wrap "failed to get NFS config: " err), model), w1)
  | (Except.ok config, w1) =>
    match Call R w1 "service.query" [nfsFilter] unmarshalMap with
    | (Except.error err, w2) =>
      (Completion.returned (some (GoError.wrap "failed to get service state: " err), model), w2)
    | (Except.ok _, w2) =>
      match Call R w2 "service.query" [nfsFilter] unmarshalMaps with
      | (Except.error err, w3) =>
        (Completion.returned (some (GoError.wrap "failed to query service: " err), model), w3)
      | (Except.ok services, w3) =>
        match mapConfig config (mapServiceState services model) with
        | Completion.panicked msg => (Completion.panicked msg, w3)
        | Completion.returned model => (Completion.returned (none, model), w3)

/-- The string conversion of the service name and options sent to the lifecycle calls. -/
def lifecycleParams : List JSON := [JSON.str "nfs", silentFalse]

/-- The tail shared by `Create`, `Read` and `Update`: the read-back with its error branch
(`detail` is the text that differs between the three), then the id and `State.Set`, which
is taken to add no diagnostic. -/
def readBackAndSet (R : Remote) (w : World) (model : ServiceNFSResourceModel)
    (diags : Diagnostics) (detail : String) :
    Completion (Response ServiceNFSResourceModel) × World :=
  match readService R w model with
  | (Completion.panicked msg, w1) => (Completion.panicked msg, w1)
  | (Completion.returned (some err, _), w1) =>
    (Completion.returned
      { diags := AddError diags "Error Reading NFS Service" (detail ++ err.Error)
        state := StateAction.unchanged }, w1)
  | (Completion.returned (none, model), w1) =>
    (Completion.returned
      { diags := diags
        state := StateAction.set { model with ID := Attr.known "nfs" } }, w1)

/-- The method `ServiceNFSResource.Create`.  The comment of the source above the branch on
the enabled flag reads `Start or stop service based on enabled flag`; the code of the branch
only starts: with the flag false it issues no lifecycle call. -/
def ServiceNFSResource.Create (R : Remote) (w : World) (plan : Source ServiceNFSResourceModel) :
    Completion (Response ServiceNFSResourceModel) × World :=
  let diags : Diagnostics := plan.getDiags
  if HasError diags then
    (Completion.returned { diags := diags, state := StateAction.unchanged }, w)
  else
    let plan := plan.value
    let (configData, diags) := buildConfigData plan diags
    if HasError diags then
      (Completion.returned { diags := diags, state := StateAction.unchanged }, w)
    else
      match Call R w "nfs.update" [JSON.obj configData] unmarshalMap with
      | (Except.error err, w1) =>
        (Completion.returned
          { diags := AddError diags "Error Configuring NFS Service"
              ("Could not configure NFS service: " ++ err.Error)
            state := StateAction.unchanged }, w1)
      | (Except.ok _, w1) =>
        let started : Option GoError × World :=
          if plan.Enabled.ValueBool then
            match Call R w1 "service.start" lifecycleParams unmarshalNil with
            | (Except.error err, w2) => (some err, w2)
            | (Except.ok _, w2) => (none, w2)
          else (none, w1)
        match started with
        | (some err, w2) =>
          (Completion.returned
            { diags := AddError diags "Error Starting NFS Service"
                ("Could not start NFS service: " ++ err.Error)
              state := StateAction.unchanged }, w2)
        | (none, w2) =>
          readBackAndSet R w2 plan diags "Could not read NFS service after configuration: "

/-- The method `ServiceNFSResource.Read`. -/
def ServiceNFSResource.Read (R : Remote) (w : World) (state : Source ServiceNFSResourceModel) :
    Completion (Response ServiceNFSResourceModel) × World :=
  let diags : Diagnostics := state.getDiags
  if HasError diags then
    (Completion.returned { diags := diags, state := StateAction.unchanged }, w)
  else
    readBackAndSet R w state.value diags "Could not read NFS service: "

/-- The branch of `Update` on the enabled flags: the lifecycle call issued, if any, with
the summary and detail of the diagnostic to add when it fails. -/
def lifecycleCall (R : Remote) (w : World) (planEnabled stateEnabled : Bool) :
    Option (String × String × GoError) × World :=
  if planEnabled && !stateEnabled then
    match Call R w "service.start" lifecycleParams unmarshalNil with
    | (Except.error err, w1) =>
      (some ("Error Starting NFS Service", "Could not start NFS service: ", err), w1)
    | (Except.ok _, w1) => (none, w1)
  else if !planEnabled && stateEnabled then
    match Call R w "service.stop" lifecycleParams unmarshalNil with
    | (Except.error err, w1) =>
      (some ("Error Stopping NFS Service", "Could not stop NFS service: ", err), w1)
    | (Except.ok _, w1) => (none, w1)
  else if planEnabled then
    match Call R w "service.restart" lifecycleParams unmarshalNil with
    | (Except.error err, w1) =>
      (some ("Error Restarting NFS Service", "Could not restart NFS service: ", err), w1)
    | (Except.ok _, w1) => (none, w1)
  else (none, w)

/-- The method `ServiceNFSResource.Update`. -/
def ServiceNFSResource.Update (R : Remote) (w : World)
    (plan state : Source ServiceNFSResourceModel) :
    Completion (Response ServiceNFSResourceModel) × World :=
  let diags : Diagnostics := plan.getDiags
  if HasError diags then
    (Completion.returned { diags := diags, state := StateAction.unchanged }, w)
  else
    let diags := diags ++ state.getDiags
    if HasError diags then
      (Completion.returned { diags := diags, state := StateAction.unchanged }, w)
    else
      let plan := plan.value
      let state := state.value
      let (configData, diags) := buildConfigData plan diags
      if HasError diags then
        (Completion.returned { diags := diags, state := StateAction.unchanged }, w)
      else
        match Call R w "nfs.update" [JSON.obj configData] unmarshalMap with
        | (Except.error err, w1) =>
          (Completion.returned
            { diags := AddError diags "Error Updating NFS Service"
                ("Could not update NFS service: " ++ err.Error)
              state := StateAction.unchanged }, w1)
        | (Except.ok _, w1) =>
          match lifecycleCall R w1 plan.Enabled.ValueBool state.Enabled.ValueBool with
          | (some (summary, detail, err), w2) =>
            (Completion.returned
              { diags := AddError diags summary (detail ++ err.Error)
                state := StateAction.unchanged }, w2)
          | (none, w2) =>
            readBackAndSet R w2 plan diags "Could not read NFS service after update: "

/-- The method `ServiceNFSResource.Delete`. -/
def ServiceNFSResource.Delete (R : Remote) (w : World) (state : Source ServiceNFSResourceModel) :
    Response ServiceNFSResourceModel × World :=
  let diags : Diagnostics := state.getDiags
  if HasError diags then ({ diags := diags, state := StateAction.unchanged }, w)
  else
    match Call R w "service.stop" lifecycleParams unmarshalNil with
    | (Except.error err, w1) =>
      ({ diags := AddError diags "Error Stopping NFS Service"
           ("Could not stop NFS service: " ++ err.Error)
         state := StateAction.unchanged }, w1)
    | (Except.ok _, w1) => ({ diags := diags, state := StateAction.unchanged }, w1)

/-! The Docker service resource (`service_docker.go`) -/

/-- The struct `ServiceDockerResourceModel`. -/
structure ServiceDockerResourceModel where
  ID : Attr String
  Pool : Attr String
  NvidiaEnabled : Attr Bool
  EnableImageUpdates : Attr Bool
  Status : Attr String

/-- The constant `time.Second`, in nanoseconds. -/
def second : Nat := 1000000000

/-- The constant `time.Minute`, in nanoseconds. -/
def minute : Nat := 60 * second

/-- The map `updateData` that `updateDocker` builds from the plan. -/
def updateData (plan : ServiceDockerResourceModel) : GoMap :=
  let updateData : GoMap := [("pool", JSON.str plan.Pool.ValueString)]
  let updateData :=
    setKeyIf (!plan.NvidiaEnabled.IsNull && !plan.NvidiaEnabled.IsUnknown)
      "nvidia" (JSON.bool plan.NvidiaEnabled.ValueBool) updateData
  let updateData :=
    setKeyIf (!plan.EnableImageUpdates.IsNull && !plan.EnableImageUpdates.IsUnknown)
      "enable_image_updates" (JSON.bool plan.EnableImageUpdates.ValueBool) updateData
  updateData

/-- The method `ServiceDockerResource.updateDocker`. -/
def updateDocker (R : Remote) (w : World) (plan : ServiceDockerResourceModel) :
    Option GoError × World :=
  match Call R w "docker.update" [JSON.obj (updateData plan)] unmarshalFloat64 with
  | (Except.error err, w1) =>
    (some (GoError.wrap "could not update Docker service: " err), w1)
  | (Except.ok jobID, w1) =>
    match WaitForJob R w1 (int64 jobID) (5 * minute) with
    | (Except.error err, w2) => (some (GoError.wrap "Docker update job failed: " err), w2)
    | (Except.ok _, w2) => (none, w2)

/-- The loop of `waitForRunning`, one iteration per unit of fuel; `none` when the fuel
runs out before the loop returns. -/
def waitForRunningLoop (R : Remote) (deadline pollInterval : Nat) :
    Nat → World → Option (Option GoError × World)
  | 0, _ => none
  | fuel + 1, w =>
    if w.now > deadline then
      some (some (GoError.other
        "timeout waiting for Docker service to become RUNNING after 5m0s"), w)
    else
      match Call R w "docker.status" [] unmarshalMap with
      | (Except.error _, w1) =>
        waitForRunningLoop R deadline pollInterval fuel (Sleep R w1 pollInterval)
      | (Except.ok status, w1) =>
        let state := (asString (lookupKey "status" status)).getD ""
        if state = "RUNNING" then some (none, w1)
        else waitForRunningLoop R deadline pollInterval fuel (Sleep R w1 pollInterval)

/-- The method `ServiceDockerResource.waitForRunning`, with the fuel of its loop. -/
def waitForRunning (R : Remote) (fuel : Nat) (w : World) : Option (Option GoError × World) :=
  let timeout := 5 * minute
  let pollInterval := 2 * second
  let deadline := w.now + timeout
  waitForRunningLoop R deadline pollInterval fuel w

/-- The method `ServiceDockerResource.readDocker`: the error returned, the model as the
function left it, and the world afterwards. -/
def readDocker (R : Remote) (w : World) (model : ServiceDockerResourceModel) :
    Option GoError × ServiceDockerResourceModel × World :=
  match Call R w "docker.config" [] unmarshalMap with
  | (Except.error err, w1) =>
    (some (GoError.wrap "failed to get Docker config: " err), model, w1)
  | (Except.ok config, w1) =>
    let model :=
      match asString (lookupKey "pool" config) with
      | some pool => { model with Pool := Attr.known pool }
      | none => { model with Pool := Attr.known "" }
    let model := assignIf (asBool (lookupKey "nvidia" config))
      (fun nvidia m => { m with NvidiaEnabled := Attr.known nvidia }) model
    let model := assignIf (asBool (lookupKey "enable_image_updates" config))
      (fun enableImageUpdates m =>
        { m with EnableImageUpdates := Attr.known enableImageUpdates }) model
    match Call R w1 "docker.status" [] unmarshalMap with
    | (Except.error err, w2) =>
      (some (GoError.wrap "failed to get Docker status: " err), model, w2)
    | (Except.ok status, w2) =>
      let model := assignIf (asString (lookupKey "status" status))
        (fun state m => { m with Status := Attr.known state }) model
      (none, model, w2)

/-- The body shared by `Create` and `Update` of the Docker resource, which differ in the
texts of two diagnostics: `updateDocker`, `waitForRunning`, `readDocker`, then the id and
`State.Set`, which is taken to add no diagnostic. -/
def dockerReconcile (summary detail : String) (R : Remote) (fuel : Nat) (w : World)
    (plan : Source ServiceDockerResourceModel) :
    Option (Response ServiceDockerResourceModel × World) :=
  let diags : Diagnostics := plan.getDiags
  if HasError diags then some ({ diags := diags, state := StateAction.unchanged }, w)
  else
    let plan := plan.value
    match updateDocker R w plan with
    | (some err, w1) =>
      some ({ diags := AddError diags summary err.Error, state := StateAction.unchanged }, w1)
    | (none, w1) =>
      match waitForRunning R fuel w1 with
      | none => none
      | some (some err, w2) =>
        some ({ diags := AddError diags "Error Waiting for Docker Service" err.Error
                state := StateAction.unchanged }, w2)
      | some (none, w2) =>
        match readDocker R w2 plan with
        | (some err, _, w3) =>
          some ({ diags := AddError diags "Error Reading Docker Service" (detail ++ err.Error)
                  state := StateAction.unchanged }, w3)
        | (none, plan, w3) =>
          some ({ diags := diags
                  state := StateAction.set { plan with ID := Attr.known "docker" } }, w3)

/-- The method `ServiceDockerResource.Create`. -/
def ServiceDockerResource.Create (R : Remote) (fuel : Nat) (w : World)
    (plan : Source ServiceDockerResourceModel) :
    Option (Response ServiceDockerResourceModel × World) :=
  dockerReconcile "Error Configuring Docker Service"
    "Could not read Docker service after configuration: " R fuel w plan

/-- The method `ServiceDockerResource.Update`. -/
def ServiceDockerResource.Update (R : Remote) (fuel : Nat) (w : World)
    (plan : Source ServiceDockerResourceModel) :
    Option (Response ServiceDockerResourceModel × World) :=
  dockerReconcile "Error Updating Docker Service"
    "Could not read Docker service after update: " R fuel w plan

/-- The method `ServiceDockerResource.Read`. -/
def ServiceDockerResource.Read (R : Remote) (w : World)
    (state : Source ServiceDockerResourceModel) :
    Response ServiceDockerResourceModel × World :=
  let diags : Diagnostics := state.getDiags
  if HasError diags then ({ diags := diags, state := StateAction.unchanged }, w)
  else
    match readDocker R w state.value with
    | (some err, _, w1) =>
      ({ diags := AddError diags "Error Reading Docker Service"
           ("Could not read Docker service: " ++ err.Error)
         state := StateAction.unchanged }, w1)
    | (none, state, w1) =>
      if state.Pool.ValueString = "" then
        ({ diags := diags, state := StateAction.removed }, w1)
      else
        ({ diags := diags, state := StateAction.set { state with ID := Attr.known "docker" } },
          w1)

/-- The method `ServiceDockerResource.Delete`. -/
def ServiceDockerResource.Delete (R : Remote) (w : World) :
    Response ServiceDockerResourceModel × World :=
  let updateData : GoMap := [("pool", JSON.null)]
  match Call R w "docker.update" [JSON.obj updateData] unmarshalFloat64 with
  | (Except.error err, w1) =>
    ({ diags := AddError [] "Error Unconfiguring Docker Service"
         ("Could not unconfigure Docker service: " ++ err.Error)
       state := StateAction.unchanged }, w1)
  | (Except.ok jobID, w1) =>
    match WaitForJob R w1 (int64 jobID) (5 * minute) with
    | (Except.error err, w2) =>
      ({ diags := AddError [] "Error Unconfiguring Docker Service"
           ("Docker unconfigure job failed: " ++ err.Error)
         state := StateAction.unchanged }, w2)
    | (Except.ok _, w2) => ({ diags := [], state := StateAction.unchanged }, w2)

/-! Vocabulary of the statements -/

/-- The operations of a history, oldest first, without their outcomes. -/
def ops (w : World) : List Op := w.trace.map Step.op

/-- The remote calls of the NFS read-back. -/
def isReadCall (op : Op) : Prop :=
  op = Op.call "nfs.config" [] ∨ op = Op.call "service.query" [nfsFilter]

/-- The lifecycle method that follows `nfs.update` in an update, as a function of the
enabled flag of the prior state and of the plan. -/
def lifecycleMethod (stateEnabled planEnabled : Bool) : Option String :=
  match stateEnabled, planEnabled with
  | false, true => some "service.start"
  | true, false => some "service.stop"
  | true, true => some "service.restart"
  | false, false => none

/-- The lifecycle operations expected after `nfs.update`: one call on the service `nfs`,
or none. -/
def lifecycleOps (stateEnabled planEnabled : Bool) : List Op :=
  match lifecycleMethod stateEnabled planEnabled with
  | some method => [Op.call method [JSON.str "nfs", silentFalse]]
  | none => []

/-- What the payload carries for a plan field: the encoded value of a known field, and
nothing for a null or unknown one. -/
def sent {α : Type} (encode : α → JSON) : Attr α → Option JSON
  | Attr.known v => some (encode v)
  | _ => none

/-- The JSON array of the strings of a list of framework strings. -/
def encodeStrings (elems : List (Attr String)) : JSON :=
  JSON.arr (elems.map (fun e => JSON.str e.ValueString))

/-- A remote that answers the n-th operation of a history with the n-th entry of a script,
and with `null` beyond its end; every operation takes no time. -/
def scripted (script : List (Except GoError JSON)) : Remote :=
  fun w _ => { result := (script.get? w.trace.length).getD (Except.ok JSON.null), elapsed := 0 }

/-- The world before the first operation. -/
def World.start : World := { now := 0, trace := [] }

/-- An NFS model with the given enabled flag and every other field null. -/
def nfsModel (enabled : Attr Bool) : ServiceNFSResourceModel :=
  { ID := Attr.null, Enabled := enabled, Servers := Attr.null, UDPEnabled := Attr.null
    V4 := Attr.null, V4V3Owner := Attr.null, V4Krb := Attr.null, Bindip := Attr.null
    MountdPort := Attr.null, RpclockdPort := Attr.null, AllowNonroot := Attr.null
    ManagedNFSv4ACL := Attr.null }

/-- An operation stopped on an error: an error diagnostic is present and the response state
is what it was on entry. -/
def stoppedOnError {μ : Type} (resp : Response μ) : Prop :=
  HasError resp.diags = true ∧ resp.state = StateAction.unchanged

/-- A Docker create or update with outcome `out` returns, and each failing step ends it:
when `docker.update` fails, when the job wait fails, when `waitForRunning` fails, or when a
call of the read-back fails, the world at return is the world right after that step (no
operation follows it), an error diagnostic is present and the state is untouched. -/
def stopsAtFailure (R : Remote) (fuel : Nat) (w : World) (plan : ServiceDockerResourceModel)
    (out : Option (Response ServiceDockerResourceModel × World)) : Prop :=
  ∃ resp w', out = some (resp, w') ∧
    (∀ e w1, Call R w "docker.update" [JSON.obj (updateData plan)] unmarshalFloat64
        = (Except.error e, w1) → w' = w1 ∧ stoppedOnError resp) ∧
    (∀ jobID w1 e w2,
      Call R w "docker.update" [JSON.obj (updateData plan)] unmarshalFloat64
        = (Except.ok jobID, w1) →
      WaitForJob R w1 (int64 jobID) (5 * minute) = (Except.error e, w2) →
      w' = w2 ∧ stoppedOnError resp) ∧
    (∀ w1 e w2, updateDocker R w plan = (none, w1) →
      waitForRunning R fuel w1 = some (some e, w2) → w' = w2 ∧ stoppedOnError resp) ∧
    (∀ w1 w2 e w3, updateDocker R w plan = (none, w1) →
      waitForRunning R fuel w1 = some (none, w2) →
      (Call R w2 "docker.config" [] unmarshalMap = (Except.error e, w3) ∨
        ∃ config w2', Call R w2 "docker.config" [] unmarshalMap = (Except.ok config, w2') ∧
          Call R w2' "docker.status" [] unmarshalMap = (Except.error e, w3)) →
      w' = w3 ∧ stoppedOnError resp)

/-- A Docker model with the given pool and every other field null. -/
def dockerModel (pool : Attr String) : ServiceDockerResourceModel :=
  { ID := Attr.null, Pool := pool, NvidiaEnabled := Attr.null
    EnableImageUpdates := Attr.null, Status := Attr.null }

/-- A remote whose `docker.config` reports an empty pool and whose `docker.status` fails. -/
def emptyPoolThenFailure : Remote :=
  scripted [Except.ok (JSON.obj [("pool", JSON.str "")]),
            Except.error (GoError.other "connection reset by peer")]

/-- A remote whose `docker.config` reports a null pool and whose `docker.status` answers. -/
def nullPoolRunning : Remote :=
  scripted [Except.ok (JSON.obj [("pool", JSON.null)]),
            Except.ok (JSON.obj [("status", JSON.str "STOPPED")])]

/-- The steps of the history of `w'` that were added after `w`. -/
def stepsSince (w w' : World) : List Step := w'.trace.drop w.trace.length

/-- The text `part` occurs in `text`. -/
def containsText (text part : String) : Prop :=
  ∃ before after, text = before ++ part ++ after

/-- An error diagnostic of `ds` whose detail contains the text `part`. -/
def reportsError (ds : Diagnostics) (part : String) : Prop :=
  ∃ diag ∈ ds, diag.severity = Severity.error ∧ containsText diag.detail part

/-- A remote whose first answer is the classified not-found error. -/
def notFoundRemote : Remote :=
  scripted [Except.error (GoError.api 3 "Resource not found" "")]

/-- A remote on which every call of an NFS create succeeds: `nfs.update` answers the new
config, `service.start` a job id, `nfs.config` a config, the first `service.query` null and
the second the array of service states. -/
def startingRemote : Remote :=
  scripted [Except.ok (JSON.obj [("servers", JSON.num 4)]),
            Except.ok (JSON.num 42),
            Except.ok (JSON.obj [("servers", JSON.num 4)]),
            Except.ok JSON.null,
            Except.ok (JSON.arr [JSON.obj [("service", JSON.str "nfs"),
                                           ("state", JSON.str "RUNNING")]])]

/-- An appliance that answers an NFS create by method, as the wire protocol describes:
`nfs.update` and `nfs.config` with the config object, `service.start` with the job id 42,
`service.query` with the array of service states. -/
def startingAppliance : Remote :=
  fun _ op =>
    match op with
    | Op.call method _ =>
      if method = "nfs.update" ∨ method = "nfs.config" then
        { result := Except.ok (JSON.obj [("servers", JSON.num 4), ("v4", JSON.bool true)])
          elapsed := 0 }
      else if method = "service.start" then
        { result := Except.ok (JSON.num 42), elapsed := 0 }
      else if method = "service.query" then
        { result := Except.ok (JSON.arr [JSON.obj [("service", JSON.str "nfs"),
                                                   ("state", JSON.str "RUNNING")]])
          elapsed := 0 }
      else { result := Except.ok JSON.null, elapsed := 0 }
    | _ => { result := Except.ok JSON.null, elapsed := 0 }

/-- The read-back calls of the NFS resource, in order. -/
def readBackOps : List Op :=
  [Op.call "nfs.config" [], Op.call "service.query" [nfsFilter],
   Op.call "service.query" [nfsFilter]]

/-- An appliance that answers by method, as the wire protocol describes: `nfs.config` with
a config object, `service.query` with the array of service states, NFS running. -/
def runningAppliance : Remote :=
  fun _ op =>
    match op with
    | Op.call method _ =>
      if method = "nfs.config" then
        { result := Except.ok (JSON.obj [("servers", JSON.num 4), ("v4", JSON.bool true)])
          elapsed := 0 }
      else if method = "service.query" then
        { result := Except.ok (JSON.arr [JSON.obj [("service", JSON.str "nfs"),
                                                   ("state", JSON.str "RUNNING")]])
          elapsed := 0 }
      else { result := Except.ok JSON.null, elapsed := 0 }
    | _ => { result := Except.ok JSON.null, elapsed := 0 }

/-- A plan that sets servers, v4 and bindip, leaves udp_enabled unknown and the rest null. -/
def samplePlan : ServiceNFSResourceModel :=
  { nfsModel (Attr.known true) with
    Servers := Attr.known 8, UDPEnabled := Attr.unknown, V4 := Attr.known false
    Bindip := Attr.known [Attr.known "10.0.0.5", Attr.known "10.0.0.6"] }

/-- A Docker plan with every field set. -/
def sampleDockerPlan : ServiceDockerResourceModel :=
  { dockerModel (Attr.known "tank") with
    NvidiaEnabled := Attr.known true, EnableImageUpdates := Attr.known false }

/-- The error `waitForRunning` returns at the deadline. -/
def timeoutError : GoError :=
  GoError.other "timeout waiting for Docker service to become RUNNING after 5m0s"

/-- The poll of `docker.status` issued at `w` succeeds with the status exactly RUNNING. -/
def pollRunning (R : Remote) (w : World) : Bool :=
  match (Call R w "docker.status" [] unmarshalMap).1 with
  | Except.ok status => decide ((asString (lookupKey "status" status)).getD "" = "RUNNING")
  | Except.error _ => false

/-- The world at the next loop head when the poll issued at `w` does not end the wait:
after that poll and a sleep of two seconds. -/
def nextHead (R : Remote) (w : World) : World :=
  Sleep R (Call R w "docker.status" [] unmarshalMap).2 (2 * second)

/-- The world at the i-th loop head of a wait that starts at `w`, were every poll before it
followed by the sleep. -/
def loopHead (R : Remote) (w : World) : Nat → World
  | 0 => w
  | i + 1 => loopHead R (nextHead R w) i

/-- The wait from `w` to `w'` ended at loop head `i` with a poll that reports RUNNING: the
heads before it were within the deadline and their polls did not report RUNNING, head `i`
is within the deadline, its poll reports RUNNING, and `w'` is the world after that poll. -/
def endsRunningAt (R : Remote) (deadline : Nat) (w w' : World) (i : Nat) : Prop :=
  (∀ j, j < i → (loopHead R w j).now ≤ deadline ∧ pollRunning R (loopHead R w j) = false) ∧
  (loopHead R w i).now ≤ deadline ∧ pollRunning R (loopHead R w i) = true ∧
  w' = (Call R (loopHead R w i) "docker.status" [] unmarshalMap).2

/-- The wait from `w` to `w'` ended at loop head `i` on the deadline: the heads before it
were within the deadline and their polls did not report RUNNING, head `i` is past the
deadline, and `w'` is that head itself (no poll is issued there). -/
def endsTimedOutAt (R : Remote) (deadline : Nat) (w w' : World) (i : Nat) : Prop :=
  (∀ j, j < i → (loopHead R w j).now ≤ deadline ∧ pollRunning R (loopHead R w j) = false) ∧
  deadline < (loopHead R w i).now ∧ w' = loopHead R w i

/-- A remote whose Docker service reports INITIALIZING, then fails one poll, then reports
RUNNING (the entries in between answer the sleeps). -/
def warmingUp : Remote :=
  scripted [Except.ok (JSON.obj [("status", JSON.str "INITIALIZING")]),
            Except.ok JSON.null,
            Except.error (GoError.other "connection reset by peer"),
            Except.ok JSON.null,
            Except.ok (JSON.obj [("status", JSON.str "RUNNING")])]

/-- The outside when the context of the caller is cancelled: every call returns the error
of the context at once. -/
def cancelledContext : Remote :=
  fun _ op =>
    match op with
    | Op.call _ _ => { result := Except.error (GoError.other "context canceled"), elapsed := 0 }
    | _ => { result := Except.ok JSON.null, elapsed := 0 }

/-- The context is cancelled from the clock reading `t` on: every call issued at or after
`t` returns the error of the context. -/
def cancelledFrom (R : Remote) (t : Nat) : Prop :=
  ∀ (w : World) (method : String) (params : List JSON), t ≤ w.now →
    (R w (Op.call method params)).result = Except.error (GoError.other "context canceled")

/-- The number of remote calls in a history. -/
def callCount (w : World) : Nat :=
  (w.trace.filter (fun step =>
    match step.op with
    | Op.call _ _ => true
    | _ => false)).length

/-- A remote whose `nfs.config` reports a bindip array with a number in it, and whose two
`service.query` calls answer `null`, which both result slots accept. -/
def looseBindip : Remote :=
  scripted [Except.ok (JSON.obj [("servers", JSON.num 4),
                                 ("bindip", JSON.arr [JSON.str "10.0.0.5", JSON.num 7])]),
            Except.ok JSON.null,
            Except.ok JSON.null]

/-! Theorems -/

theorem ops_Call {α : Type} (R : Remote) (w : World) (method : String) (params : List JSON)
    (unmarshal : JSON → Except GoError α) :
    ops (Call R w method params unmarshal).2 = ops w ++ [Op.call method params] := by
  simp [ops, Call]

theorem ops_of_Call {α : Type} {R : Remote} {w w1 : World} {method : String}
    {params : List JSON} {unmarshal : JSON → Except GoError α} {r : Except GoError α}
    (h : Call R w method params unmarshal = (r, w1)) :
    ops w1 = ops w ++ [Op.call method params] := by
  have h1 := ops_Call R w method params unmarshal
  rw [h] at h1
  exact h1

theorem ops_readService (R : Remote) (w : World) (model : ServiceNFSResourceModel) :
    ∃ rest, ops (readService R w model).2 = ops w ++ rest ∧ ∀ op ∈ rest, isReadCall op := by
  unfold readService
  split
  next err w1 h1 =>
    exact ⟨[Op.call "nfs.config" []], ops_of_Call h1, by simp [isReadCall]⟩
  next config w1 h1 =>
    split
    next err w2 h2 =>
      refine ⟨[Op.call "nfs.config" [], Op.call "service.query" [nfsFilter]], ?_, ?_⟩
      · simp [ops_of_Call h2, ops_of_Call h1]
      · simp [isReadCall]
    next st w2 h2 =>
      have h : ∀ w3 r3, Call R w2 "service.query" [nfsFilter] unmarshalMaps = (r3, w3) →
          ops w3 = ops w ++ [Op.call "nfs.config" [], Op.call "service.query" [nfsFilter],
            Op.call "service.query" [nfsFilter]] := by
        intro w3 r3 h3
        simp [ops_of_Call h3, ops_of_Call h2, ops_of_Call h1]
      refine ⟨[Op.call "nfs.config" [], Op.call "service.query" [nfsFilter],
        Op.call "service.query" [nfsFilter]], ?_, by simp [isReadCall]⟩
      split
      next err w3 h3 => exact h _ _ h3
      next services w3 h3 =>
        split
        · exact h _ _ h3
        · exact h _ _ h3

theorem ops_readBackAndSet (R : Remote) (w : World) (model : ServiceNFSResourceModel)
    (diags : Diagnostics) (detail : String) :
    ∃ rest, ops (readBackAndSet R w model diags detail).2 = ops w ++ rest ∧
      ∀ op ∈ rest, isReadCall op := by
  obtain ⟨rest, h, hr⟩ := ops_readService R w model
  refine ⟨rest, ?_, hr⟩
  unfold readBackAndSet
  split
  next msg w1 h1 => rw [h1] at h; exact h
  next err m w1 h1 => rw [h1] at h; exact h
  next m w1 h1 => rw [h1] at h; exact h

theorem ops_lifecycleCall (R : Remote) (w : World) (planEnabled stateEnabled : Bool) :
    ops (lifecycleCall R w planEnabled stateEnabled).2 =
      ops w ++ lifecycleOps stateEnabled planEnabled := by
  unfold lifecycleCall
  cases planEnabled <;> cases stateEnabled <;>
    simp [lifecycleOps, lifecycleMethod, lifecycleParams] <;>
    (split <;> rename_i h <;> exact ops_of_Call h)

/-- C1: in an NFS update that reaches `nfs.update` and in which that call succeeds, the
operations are `nfs.update`, then the lifecycle call selected by the enabled flags of the
prior state and of the plan alone (start, stop, restart, or none), then only read-back
calls. -/
theorem nfs_update_lifecycle (R : Remote) (w : World)
    (plan state : Source ServiceNFSResourceModel) (result : GoMap)
    (hplan : HasError plan.getDiags = false)
    (hstate : HasError (plan.getDiags ++ state.getDiags) = false)
    (hbuild : HasError (buildConfigData plan.value (plan.getDiags ++ state.getDiags)).2 = false)
    (hupdate : (Call R w "nfs.update"
        [JSON.obj (buildConfigData plan.value (plan.getDiags ++ state.getDiags)).1]
        unmarshalMap).1 = Except.ok result) :
    ∃ rest,
      ops (ServiceNFSResource.Update R w plan state).2 =
        ops w
          ++ [Op.call "nfs.update"
                [JSON.obj (buildConfigData plan.value (plan.getDiags ++ state.getDiags)).1]]
          ++ lifecycleOps state.value.Enabled.ValueBool plan.value.Enabled.ValueBool
          ++ rest ∧
      ∀ op ∈ rest, isReadCall op := by
  unfold ServiceNFSResource.Update
  simp only [hplan, hstate, hbuild, Bool.false_eq_true, if_false]
  split
  next err w1 h1 => rw [h1] at hupdate; cases hupdate
  next r w1 h1 =>
    have hl := ops_lifecycleCall R w1 plan.value.Enabled.ValueBool state.value.Enabled.ValueBool
    split
    next summary detail err w2 h2 =>
      refine ⟨[], ?_, by simp⟩
      rw [h2] at hl
      simp only [] at hl
      simp [hl, ops_of_Call h1]
    next w2 h2 =>
      rw [h2] at hl
      simp only [] at hl
      obtain ⟨rest, hr, hrest⟩ := ops_readBackAndSet R w2 plan.value
        (buildConfigData plan.value (plan.getDiags ++ state.getDiags)).2
        "Could not read NFS service after update: "
      refine ⟨rest, ?_, hrest⟩
      simp [hr, hl, ops_of_Call h1]

/-- Witness of C1: an update from enabled to disabled against a remote that answers every
call with `null`. -/
theorem nfs_update_lifecycle_witness :
    HasError ([] : Diagnostics) = false ∧
    (Call (scripted []) World.start "nfs.update"
      [JSON.obj (buildConfigData (nfsModel (Attr.known false)) ([] ++ [])).1]
      unmarshalMap).1 = Except.ok [] ∧
    ∃ rest,
      ops (ServiceNFSResource.Update (scripted []) World.start
          { value := nfsModel (Attr.known false), getDiags := [] }
          { value := nfsModel (Attr.known true), getDiags := [] }).2 =
        ops World.start
          ++ [Op.call "nfs.update"
                [JSON.obj (buildConfigData (nfsModel (Attr.known false)) ([] ++ [])).1]]
          ++ lifecycleOps (nfsModel (Attr.known true)).Enabled.ValueBool
               (nfsModel (Attr.known false)).Enabled.ValueBool
          ++ rest ∧
      ∀ op ∈ rest, isReadCall op :=
  ⟨rfl, rfl,
   nfs_update_lifecycle (scripted []) World.start
    { value := nfsModel (Attr.known false), getDiags := [] }
    { value := nfsModel (Attr.known true), getDiags := [] } [] rfl rfl rfl rfl⟩

theorem nfs_update_stop_trace :
    ops (ServiceNFSResource.Update (scripted []) World.start
        { value := nfsModel (Attr.known false), getDiags := [] }
        { value := nfsModel (Attr.known true), getDiags := [] }).2 =
      [Op.call "nfs.update" [JSON.obj []], Op.call "service.stop" [JSON.str "nfs", silentFalse],
       Op.call "nfs.config" [], Op.call "service.query" [nfsFilter],
       Op.call "service.query" [nfsFilter]] := by
  rfl

/-! The NFS payload -/

theorem lookupKey_setKey (k k' : String) (v : JSON) (m : GoMap) :
    lookupKey k (setKey k' v m) = if k' = k then some v else lookupKey k m := by
  induction m with
  | nil => simp [setKey, lookupKey]
  | cons kv rest ih =>
    obtain ⟨k0, v0⟩ := kv
    by_cases h0 : k0 = k'
    · by_cases h1 : k' = k
      · simp [setKey, lookupKey, h0, h1]
      · simp [setKey, lookupKey, h0, h1]
    · by_cases h1 : k' = k
      · subst h1
        simp [setKey, lookupKey, h0, ih]
      · by_cases h2 : k0 = k
        · subst h2
          simp [setKey, lookupKey, h0, h1]
        · simp [setKey, lookupKey, h0, h1, h2, ih]

theorem ElementsAs_known (elems : List (Attr String))
    (h : ∀ e ∈ elems, e.IsNull = false ∧ e.IsUnknown = false) :
    ElementsAs elems = (elems.map Attr.ValueString, []) := by
  induction elems with
  | nil => rfl
  | cons e rest ih =>
    have hrest : ∀ e ∈ rest, e.IsNull = false ∧ e.IsUnknown = false :=
      fun x hx => h x (List.mem_cons_of_mem _ hx)
    have he := h e (List.mem_cons_self _ _)
    cases e with
    | null => simp [Attr.IsNull] at he
    | unknown => simp [Attr.IsUnknown] at he
    | known s => simp [ElementsAs, ih hrest, Attr.ValueString]

theorem lookupKey_setKeyIf (k k' : String) (v : JSON) (m : GoMap) (c : Bool) :
    lookupKey k (setKeyIf c k' v m) =
      if c = true ∧ k' = k then some v else lookupKey k m := by
  cases c <;> simp [setKeyIf, lookupKey_setKey]

theorem setBindip_known (bindip : Attr (List (Attr String))) (configData : GoMap)
    (diagnostics : Diagnostics) (hdiags : HasError diagnostics = false)
    (hbindip : ∀ elems, bindip = Attr.known elems →
      ∀ e ∈ elems, e.IsNull = false ∧ e.IsUnknown = false) :
    setBindip bindip configData diagnostics =
      (setKeyIf (!bindip.IsNull && !bindip.IsUnknown) "bindip"
        (JSON.arr ((bindip.ValueElements).map (fun e => JSON.str e.ValueString))) configData,
       diagnostics) := by
  cases bindip with
  | null => simp [setBindip, setKeyIf, Attr.IsNull]
  | unknown => simp [setBindip, setKeyIf, Attr.IsNull, Attr.IsUnknown]
  | known elems =>
    simp [setBindip, setKeyIf, Attr.IsNull, Attr.IsUnknown,
      ElementsAs_known elems (hbindip elems rfl), hdiags, Attr.ValueElements]
    rfl

/-- C2: for a plan whose bindip elements are all known strings and diagnostics without
error on entry, the payload of `buildConfigData` holds, under the key of each configuration
field, exactly what `sent` gives for that field (the plan's value when the field is known,
no entry when it is null or unknown), holds no entry under `id` or `enabled`, and the
diagnostics are returned as they were. -/
theorem buildConfigData_payload (plan : ServiceNFSResourceModel) (diagnostics : Diagnostics)
    (hdiags : HasError diagnostics = false)
    (hbindip : ∀ elems, plan.Bindip = Attr.known elems →
      ∀ e ∈ elems, e.IsNull = false ∧ e.IsUnknown = false) :
    lookupKey "servers" (buildConfigData plan diagnostics).1 = sent JSON.num plan.Servers ∧
    lookupKey "udp" (buildConfigData plan diagnostics).1 = sent JSON.bool plan.UDPEnabled ∧
    lookupKey "v4" (buildConfigData plan diagnostics).1 = sent JSON.bool plan.V4 ∧
    lookupKey "v4_v3owner" (buildConfigData plan diagnostics).1 =
      sent JSON.bool plan.V4V3Owner ∧
    lookupKey "v4_krb" (buildConfigData plan diagnostics).1 = sent JSON.bool plan.V4Krb ∧
    lookupKey "bindip" (buildConfigData plan diagnostics).1 = sent encodeStrings plan.Bindip ∧
    lookupKey "mountd_port" (buildConfigData plan diagnostics).1 =
      sent JSON.num plan.MountdPort ∧
    lookupKey "rpcstatd_port" (buildConfigData plan diagnostics).1 =
      sent JSON.num plan.RpclockdPort ∧
    lookupKey "allow_nonroot" (buildConfigData plan diagnostics).1 =
      sent JSON.bool plan.AllowNonroot ∧
    lookupKey "managed_nfsv4_acl" (buildConfigData plan diagnostics).1 =
      sent JSON.bool plan.ManagedNFSv4ACL ∧
    lookupKey "id" (buildConfigData plan diagnostics).1 = none ∧
    lookupKey "enabled" (buildConfigData plan diagnostics).1 = none ∧
    (buildConfigData plan diagnostics).2 = diagnostics := by
  simp only [buildConfigData, setBindip_known plan.Bindip _ diagnostics hdiags hbindip,
    lookupKey_setKeyIf]
  refine ⟨?_, ?_, ?_, ?_, ?_, ?_, ?_, ?_, ?_, ?_, ?_, ?_, ?_⟩
  · cases plan.Servers <;> simp [sent, lookupKey, Attr.IsNull, Attr.IsUnknown, Attr.ValueInt64]
  · cases plan.UDPEnabled <;>
      simp [sent, lookupKey, Attr.IsNull, Attr.IsUnknown, Attr.ValueBool]
  · cases plan.V4 <;> simp [sent, lookupKey, Attr.IsNull, Attr.IsUnknown, Attr.ValueBool]
  · cases plan.V4V3Owner <;>
      simp [sent, lookupKey, Attr.IsNull, Attr.IsUnknown, Attr.ValueBool]
  · cases plan.V4Krb <;> simp [sent, lookupKey, Attr.IsNull, Attr.IsUnknown, Attr.ValueBool]
  · cases plan.Bindip <;>
      simp [sent, lookupKey, Attr.IsNull, Attr.IsUnknown, Attr.ValueElements, encodeStrings]
  · cases plan.MountdPort <;>
      simp [sent, lookupKey, Attr.IsNull, Attr.IsUnknown, Attr.ValueInt64]
  · cases plan.RpclockdPort <;>
      simp [sent, lookupKey, Attr.IsNull, Attr.IsUnknown, Attr.ValueInt64]
  · cases plan.AllowNonroot <;>
      simp [sent, lookupKey, Attr.IsNull, Attr.IsUnknown, Attr.ValueBool]
  · cases plan.ManagedNFSv4ACL <;>
      simp [sent, lookupKey, Attr.IsNull, Attr.IsUnknown, Attr.ValueBool]
  · simp [lookupKey]
  · simp [lookupKey]
  · trivial

/-- Witness of C2: the payload of `samplePlan`. -/
theorem buildConfigData_payload_witness :
    HasError ([] : Diagnostics) = false ∧
    (buildConfigData samplePlan []).1 =
      [("servers", JSON.num 8), ("v4", JSON.bool false),
       ("bindip", JSON.arr [JSON.str "10.0.0.5", JSON.str "10.0.0.6"])] ∧
    (lookupKey "servers" (buildConfigData samplePlan []).1 = some (JSON.num 8) ∧
     lookupKey "udp" (buildConfigData samplePlan []).1 = none ∧
     lookupKey "v4" (buildConfigData samplePlan []).1 = some (JSON.bool false) ∧
     lookupKey "v4_v3owner" (buildConfigData samplePlan []).1 = none ∧
     lookupKey "v4_krb" (buildConfigData samplePlan []).1 = none ∧
     lookupKey "bindip" (buildConfigData samplePlan []).1 =
       some (JSON.arr [JSON.str "10.0.0.5", JSON.str "10.0.0.6"]) ∧
     lookupKey "mountd_port" (buildConfigData samplePlan []).1 = none ∧
     lookupKey "rpcstatd_port" (buildConfigData samplePlan []).1 = none ∧
     lookupKey "allow_nonroot" (buildConfigData samplePlan []).1 = none ∧
     lookupKey "managed_nfsv4_acl" (buildConfigData samplePlan []).1 = none ∧
     lookupKey "id" (buildConfigData samplePlan []).1 = none ∧
     lookupKey "enabled" (buildConfigData samplePlan []).1 = none ∧
     (buildConfigData samplePlan []).2 = []) :=
  ⟨rfl, rfl,
   buildConfigData_payload samplePlan [] rfl (by
     intro elems h e he
     have h1 : elems = [Attr.known "10.0.0.5", Attr.known "10.0.0.6"] := by
       cases h; rfl
     subst h1
     simp only [List.mem_cons, List.mem_singleton, List.not_mem_nil, or_false] at he
     rcases he with h | h <;> subst h <;> exact ⟨rfl, rfl⟩)⟩

/-! Docker: the polling loop returns -/

theorem now_Call {α : Type} (R : Remote) (w : World) (method : String) (params : List JSON)
    (unmarshal : JSON → Except GoError α) :
    w.now ≤ (Call R w method params unmarshal).2.now := by
  simp [Call]

theorem now_Sleep (R : Remote) (w : World) (d : Nat) : w.now + d ≤ (Sleep R w d).now := by
  simp [Sleep]

theorem waitForRunningLoop_returns (R : Remote) (deadline pollInterval : Nat) :
    ∀ (n : Nat) (w : World), deadline < w.now + n * pollInterval →
      ∃ r, waitForRunningLoop R deadline pollInterval (n + 1) w = some r := by
  intro n
  induction n with
  | zero =>
    intro w h
    have h0 : deadline < w.now := by simpa using h
    simp [waitForRunningLoop, h0]
  | succ n ih =>
    intro w h
    unfold waitForRunningLoop
    by_cases h0 : deadline < w.now
    · simp [h0]
    · have hc := now_Call R w "docker.status" [] unmarshalMap
      have next : ∀ w1, w.now ≤ w1.now →
          ∃ r, waitForRunningLoop R deadline pollInterval (n + 1) (Sleep R w1 pollInterval)
            = some r := by
        intro w1 h1
        apply ih
        have hs := now_Sleep R w1 pollInterval
        have : (n + 1) * pollInterval = n * pollInterval + pollInterval := by ring
        omega
      simp only [gt_iff_lt, h0, if_false]
      split
      next e w1 h1 =>
        rw [h1] at hc
        exact next w1 hc
      next status w1 h1 =>
        rw [h1] at hc
        split
        · exact ⟨_, rfl⟩
        · exact next w1 hc

theorem waitForRunningLoop_more_fuel (R : Remote) (deadline pollInterval : Nat) :
    ∀ (n : Nat) (w : World) (r : Option GoError × World),
      waitForRunningLoop R deadline pollInterval n w = some r →
      waitForRunningLoop R deadline pollInterval (n + 1) w = some r := by
  intro n
  induction n with
  | zero => intro w r h; simp [waitForRunningLoop] at h
  | succ n ih =>
    intro w r h
    unfold waitForRunningLoop at h ⊢
    by_cases h0 : deadline < w.now
    · simpa [h0] using h
    · simp only [gt_iff_lt, h0, if_false] at h ⊢
      split
      next e w1 h1 =>
        simp only [h1] at h
        exact ih _ _ h
      next status w1 h1 =>
        simp only [h1] at h
        split
        next hs => simpa [hs] using h
        next hs =>
          simp only [hs, if_false] at h
          exact ih _ _ h

theorem waitForRunning_fuel_irrelevant (R : Remote) (fuel fuel' : Nat) (w : World)
    (r : Option GoError × World) (hle : fuel ≤ fuel')
    (h : waitForRunning R fuel w = some r) : waitForRunning R fuel' w = some r := by
  unfold waitForRunning at h ⊢
  induction hle with
  | refl => exact h
  | step _ ih => exact waitForRunningLoop_more_fuel R _ _ _ _ _ ih

theorem waitForRunning_returns (R : Remote) (fuel : Nat) (w : World) (hfuel : 152 ≤ fuel) :
    ∃ r, waitForRunning R fuel w = some r := by
  obtain ⟨n, rfl⟩ : ∃ n, fuel = n + 1 := ⟨fuel - 1, by omega⟩
  unfold waitForRunning
  apply waitForRunningLoop_returns
  have h1 : 151 * (2 * second) ≤ n * (2 * second) := Nat.mul_le_mul_right _ (by omega)
  simp only [minute, second] at h1 ⊢
  omega

/-! Docker: a failing step ends the operation -/

theorem HasError_AddError (ds : Diagnostics) (summary detail : String) :
    HasError (AddError ds summary detail) = true := by
  simp [HasError, AddError]

theorem dockerReconcile_failure (summary detail : String) (R : Remote) (fuel : Nat) (w : World)
    (plan : Source ServiceDockerResourceModel)
    (hplan : HasError plan.getDiags = false) (hfuel : 152 ≤ fuel) :
    stopsAtFailure R fuel w plan.value (dockerReconcile summary detail R fuel w plan) := by
  unfold stopsAtFailure
  unfold dockerReconcile
  simp only [hplan, Bool.false_eq_true, if_false]
  rcases hu : updateDocker R w plan.value with ⟨_ | err, w1⟩
  · -- updateDocker succeeded
    have hcall : ∃ jobID w0 r, Call R w "docker.update" [JSON.obj (updateData plan.value)]
        unmarshalFloat64 = (Except.ok jobID, w0) ∧
        WaitForJob R w0 (int64 jobID) (5 * minute) = (Except.ok r, w1) := by
      unfold updateDocker at hu
      split at hu
      · cases hu
      · next jobID w0 h0 =>
        split at hu
        · cases hu
        · next r w2 h2 =>
          cases hu
          exact ⟨jobID, w0, r, h0, h2⟩
    obtain ⟨jobID, w0, r0, hc, hw⟩ := hcall
    obtain ⟨r, hr⟩ := waitForRunning_returns R fuel w1 hfuel
    rcases r with ⟨_ | e, w2⟩
    · -- waitForRunning succeeded
      simp only [hr]
      rcases hrd : readDocker R w2 plan.value with ⟨_ | e3, m, w3⟩
      · refine ⟨_, _, rfl, ?_, ?_, ?_, ?_⟩
        · intro e w1' h; rw [hc] at h; cases h
        · intro j w1' e w2' h h'
          rw [hc] at h; cases h
          rw [hw] at h'; cases h'
        · intro w1' e w2' h h'
          cases h
          rw [hr] at h'; cases h'
        · intro w1' w2' e w3' h h' hread
          cases h
          rw [hr] at h'; cases h'
          unfold readDocker at hrd
          rcases hread with h1 | ⟨config, w2'', h1, h2⟩
          · rw [h1] at hrd; cases hrd
          · rw [h1] at hrd
            simp only [h2] at hrd
            cases hrd
      · refine ⟨_, _, rfl, ?_, ?_, ?_, ?_⟩
        · intro e w1' h; rw [hc] at h; cases h
        · intro j w1' e w2' h h'
          rw [hc] at h; cases h
          rw [hw] at h'; cases h'
        · intro w1' e w2' h h'
          cases h
          rw [hr] at h'; cases h'
        · intro w1' w2' e w3' h h' hread
          cases h
          rw [hr] at h'; cases h'
          refine ⟨?_, HasError_AddError _ _ _, rfl⟩
          unfold readDocker at hrd
          rcases hread with h1 | ⟨config, w2'', h1, h2⟩
          · rw [h1] at hrd; cases hrd; rfl
          · rw [h1] at hrd
            simp only [h2] at hrd
            cases hrd; rfl
    · -- waitForRunning failed
      simp only [hr]
      refine ⟨_, _, rfl, ?_, ?_, ?_, ?_⟩
      · intro e w1' h; rw [hc] at h; cases h
      · intro j w1' e w2' h h'
        rw [hc] at h; cases h
        rw [hw] at h'; cases h'
      · intro w1' e' w2' h h'
        cases h
        rw [hr] at h'; cases h'
        exact ⟨rfl, HasError_AddError _ _ _, rfl⟩
      · intro w1' w2' e' w3' h h'
        cases h
        rw [hr] at h'; cases h'
  · -- updateDocker failed
    refine ⟨_, _, rfl, ?_, ?_, ?_, ?_⟩
    · intro e w1' h
      unfold updateDocker at hu
      rw [h] at hu
      cases hu
      exact ⟨rfl, HasError_AddError _ _ _, rfl⟩
    · intro j w1' e w2' h h'
      unfold updateDocker at hu
      rw [h] at hu
      simp only [h'] at hu
      cases hu
      exact ⟨rfl, HasError_AddError _ _ _, rfl⟩
    · intro w1' e w2' h; cases h
    · intro w1' w2' e w3' h; cases h

/-- C4: a Docker create and a Docker update with enough fuel for the polling loop return,
and when `docker.update` fails, or the wait on its job fails, or `waitForRunning` fails, or
a call of the read-back fails, the operation ends right after that step with an error
diagnostic and without writing the response state. -/
theorem docker_failure_leaves_state (R : Remote) (fuel : Nat) (w : World)
    (plan : Source ServiceDockerResourceModel)
    (hplan : HasError plan.getDiags = false) (hfuel : 152 ≤ fuel) :
    stopsAtFailure R fuel w plan.value (ServiceDockerResource.Create R fuel w plan) ∧
    stopsAtFailure R fuel w plan.value (ServiceDockerResource.Update R fuel w plan) :=
  ⟨dockerReconcile_failure _ _ R fuel w plan hplan hfuel,
   dockerReconcile_failure _ _ R fuel w plan hplan hfuel⟩

/-- Witness of C4: `docker.update` is refused with a validation error. -/
theorem docker_failure_leaves_state_witness :
    HasError ([] : Diagnostics) = false ∧ 152 ≤ 152 ∧
    stopsAtFailure (scripted [Except.error (GoError.api 4 "Invalid input" "")]) 152 World.start
      (dockerModel (Attr.known "tank"))
      (ServiceDockerResource.Create (scripted [Except.error (GoError.api 4 "Invalid input" "")])
        152 World.start { value := dockerModel (Attr.known "tank"), getDiags := [] }) ∧
    stopsAtFailure (scripted [Except.error (GoError.api 4 "Invalid input" "")]) 152 World.start
      (dockerModel (Attr.known "tank"))
      (ServiceDockerResource.Update (scripted [Except.error (GoError.api 4 "Invalid input" "")])
        152 World.start { value := dockerModel (Attr.known "tank"), getDiags := [] }) :=
  ⟨rfl, Nat.le_refl _,
   docker_failure_leaves_state (scripted [Except.error (GoError.api 4 "Invalid input" "")]) 152
     World.start { value := dockerModel (Attr.known "tank"), getDiags := [] } rfl
     (Nat.le_refl _)⟩

/-- A refused `docker.update` at work: one call in the history, one error diagnostic, the
state untouched. -/
theorem docker_create_refused :
    ServiceDockerResource.Create (scripted [Except.error (GoError.api 4 "Invalid input" "")])
        152 World.start { value := dockerModel (Attr.known "tank"), getDiags := [] } =
      some
        ({ diags := [{ severity := Severity.error
                       summary := "Error Configuring Docker Service"
                       detail := "could not update Docker service: " ++
                         APIError.Error 4 "Invalid input" "" }]
           state := StateAction.unchanged },
         { now := 0
           trace := [{ op := Op.call "docker.update"
                               [JSON.obj [("pool", JSON.str "tank")]]
                       err := some (GoError.api 4 "Invalid input" "") }] }) := by
  rfl

/-! Docker read -/

theorem Pool_assignIf_nvidia (x : Option Bool) (model : ServiceDockerResourceModel) :
    (assignIf x (fun nvidia m => { m with NvidiaEnabled := Attr.known nvidia }) model).Pool
      = model.Pool := by
  cases x <;> rfl

theorem Pool_assignIf_updates (x : Option Bool) (model : ServiceDockerResourceModel) :
    (assignIf x (fun enableImageUpdates m =>
      { m with EnableImageUpdates := Attr.known enableImageUpdates }) model).Pool
      = model.Pool := by
  cases x <;> rfl

theorem Pool_assignIf_status (x : Option String) (model : ServiceDockerResourceModel) :
    (assignIf x (fun state m => { m with Status := Attr.known state }) model).Pool
      = model.Pool := by
  cases x <;> rfl

/-- Counterexample to C3: `docker.config` succeeds and reports an empty pool, the
`docker.status` call of the same read fails; the read adds an error diagnostic and leaves
the state as it was instead of removing the resource. -/
theorem docker_read_empty_pool_status_fails :
    (Call emptyPoolThenFailure World.start "docker.config" [] unmarshalMap).1
      = Except.ok [("pool", JSON.str "")] ∧
    HasError (ServiceDockerResource.Read emptyPoolThenFailure World.start
      { value := dockerModel (Attr.known "tank"), getDiags := [] }).1.diags = true ∧
    (ServiceDockerResource.Read emptyPoolThenFailure World.start
      { value := dockerModel (Attr.known "tank"), getDiags := [] }).1.state
      = StateAction.unchanged :=
  ⟨rfl, rfl, rfl⟩

/-- C3, amended: in a Docker read whose `docker.config` succeeds and reports the pool as
empty, null, missing or not a string, when `docker.status` succeeds too the resource is
removed from the state and the diagnostics stay as they were (without error) and nothing
else is called; when `docker.status` fails the read ends there with an error diagnostic
and the state untouched. -/
theorem docker_read_empty_pool (R : Remote) (w w1 : World)
    (state : Source ServiceDockerResourceModel) (config : GoMap)
    (hstate : HasError state.getDiags = false)
    (hconfig : Call R w "docker.config" [] unmarshalMap = (Except.ok config, w1))
    (hpool : asString (lookupKey "pool" config) = none ∨
      asString (lookupKey "pool" config) = some "") :
    (∀ status w2, Call R w1 "docker.status" [] unmarshalMap = (Except.ok status, w2) →
      ServiceDockerResource.Read R w state =
        ({ diags := state.getDiags, state := StateAction.removed }, w2) ∧
      HasError (ServiceDockerResource.Read R w state).1.diags = false) ∧
    (∀ e w2, Call R w1 "docker.status" [] unmarshalMap = (Except.error e, w2) →
      (ServiceDockerResource.Read R w state).2 = w2 ∧
      stoppedOnError (ServiceDockerResource.Read R w state).1) := by
  have hread : ∀ status w2, Call R w1 "docker.status" [] unmarshalMap = (Except.ok status, w2) →
      ServiceDockerResource.Read R w state =
        ({ diags := state.getDiags, state := StateAction.removed }, w2) := by
    intro status w2 hstatus
    unfold ServiceDockerResource.Read readDocker
    simp only [hstate, hconfig, hstatus, Bool.false_eq_true, if_false]
    rw [if_pos]
    simp only [Pool_assignIf_status, Pool_assignIf_updates, Pool_assignIf_nvidia]
    rcases hpool with h | h <;> simp [h, Attr.ValueString]
  refine ⟨?_, ?_⟩
  · intro status w2 hstatus
    refine ⟨hread status w2 hstatus, ?_⟩
    rw [hread status w2 hstatus]
    exact hstate
  · intro e w2 hstatus
    unfold ServiceDockerResource.Read readDocker
    simp only [hstate, hconfig, hstatus, Bool.false_eq_true, if_false]
    exact ⟨trivial, HasError_AddError _ _ _, rfl⟩

/-- Witness of C3, amended: a null pool and an answering `docker.status`. -/
theorem docker_read_empty_pool_witness :
    (∀ status w2,
      Call nullPoolRunning (Call nullPoolRunning World.start "docker.config" [] unmarshalMap).2
        "docker.status" [] unmarshalMap = (Except.ok status, w2) →
      ServiceDockerResource.Read nullPoolRunning World.start
          { value := dockerModel (Attr.known "tank"), getDiags := [] } =
        ({ diags := [], state := StateAction.removed }, w2) ∧
      HasError (ServiceDockerResource.Read nullPoolRunning World.start
          { value := dockerModel (Attr.known "tank"), getDiags := [] }).1.diags = false) ∧
    (∀ e w2,
      Call nullPoolRunning (Call nullPoolRunning World.start "docker.config" [] unmarshalMap).2
        "docker.status" [] unmarshalMap = (Except.error e, w2) →
      (ServiceDockerResource.Read nullPoolRunning World.start
          { value := dockerModel (Attr.known "tank"), getDiags := [] }).2 = w2 ∧
      stoppedOnError (ServiceDockerResource.Read nullPoolRunning World.start
          { value := dockerModel (Attr.known "tank"), getDiags := [] }).1) :=
  docker_read_empty_pool nullPoolRunning World.start _
    { value := dockerModel (Attr.known "tank"), getDiags := [] } [("pool", JSON.null)]
    rfl rfl (Or.inl rfl)

/-- A null pool at work: the resource is removed after both read calls. -/
theorem docker_read_null_pool_removed :
    (ServiceDockerResource.Read nullPoolRunning World.start
      { value := dockerModel (Attr.known "tank"), getDiags := [] }).1.state
        = StateAction.removed ∧
    ops (ServiceDockerResource.Read nullPoolRunning World.start
      { value := dockerModel (Attr.known "tank"), getDiags := [] }).2
        = [Op.call "docker.config" [], Op.call "docker.status" []] :=
  ⟨rfl, rfl⟩

/-! Errors during a read -/

theorem trace_Call {α : Type} {R : Remote} {w w1 : World} {method : String}
    {params : List JSON} {unmarshal : JSON → Except GoError α} {r : Except GoError α}
    (h : Call R w method params unmarshal = (r, w1)) :
    w1.trace = w.trace ++ [{ op := Op.call method params, err := errorOf r }] := by
  have h1 : (Call R w method params unmarshal).2.trace = w.trace ++
      [{ op := Op.call method params
         err := errorOf (Call R w method params unmarshal).1 }] := rfl
  rw [h] at h1
  exact h1

theorem stepsSince_self (w : World) : stepsSince w w = [] := by
  simp [stepsSince]

theorem stepsSince_of_trace {w w' : World} {l : List Step} (h : w'.trace = w.trace ++ l) :
    stepsSince w w' = l := by
  simp [stepsSince, h]

theorem containsText_detail (lead context part : String) :
    containsText (lead ++ (context ++ part)) part :=
  ⟨lead ++ context, "", by simp [String.append_assoc]⟩

theorem reportsError_AddError (ds : Diagnostics) (summary lead context part : String) :
    reportsError (AddError ds summary (lead ++ (context ++ part))) part :=
  ⟨{ severity := Severity.error, summary := summary, detail := lead ++ (context ++ part) },
    by simp [AddError], rfl, containsText_detail lead context part⟩

theorem nfs_read_api_error (R : Remote) (w : World) (state : Source ServiceNFSResourceModel)
    (op : Op) (c : Int) (m d : String)
    (h : { op := op, err := some (GoError.api c m d) } ∈
      stepsSince w (ServiceNFSResource.Read R w state).2) :
    ∃ resp, (ServiceNFSResource.Read R w state).1 = Completion.returned resp ∧
      stoppedOnError resp ∧ reportsError resp.diags (APIError.Error c m d) := by
  unfold ServiceNFSResource.Read at h ⊢
  cases hs : HasError state.getDiags with
  | true => simp [hs, stepsSince_self] at h
  | false =>
    simp only [hs, Bool.false_eq_true, if_false] at h ⊢
    unfold readBackAndSet readService at h ⊢
    rcases h1 : Call R w "nfs.config" [] unmarshalMap with ⟨_ | config, w1⟩
    · next e =>
      simp only [h1] at h ⊢
      rw [stepsSince_of_trace (trace_Call h1)] at h
      simp [errorOf] at h
      obtain ⟨-, rfl⟩ := h
      exact ⟨_, rfl, ⟨HasError_AddError _ _ _, rfl⟩, reportsError_AddError _ _ _ _ _⟩
    · have t1 := trace_Call h1
      rcases h2 : Call R w1 "service.query" [nfsFilter] unmarshalMap with ⟨_ | st, w2⟩
      · next e =>
        have t2 := trace_Call h2
        simp only [h1, h2] at h ⊢
        rw [stepsSince_of_trace (l := _) (by rw [t2, t1, List.append_assoc])] at h
        simp [errorOf] at h
        obtain ⟨-, rfl⟩ := h
        exact ⟨_, rfl, ⟨HasError_AddError _ _ _, rfl⟩, reportsError_AddError _ _ _ _ _⟩
      · have t2 := trace_Call h2
        rcases h3 : Call R w2 "service.query" [nfsFilter] unmarshalMaps with ⟨_ | services, w3⟩
        · next e =>
          have t3 := trace_Call h3
          simp only [h1, h2, h3] at h ⊢
          rw [stepsSince_of_trace (l := _)
            (by rw [t3, t2, t1, List.append_assoc, List.append_assoc])] at h
          simp [errorOf] at h
          obtain ⟨-, rfl⟩ := h
          exact ⟨_, rfl, ⟨HasError_AddError _ _ _, rfl⟩, reportsError_AddError _ _ _ _ _⟩
        · have t3 := trace_Call h3
          have hsteps : stepsSince w w3 =
              [{ op := Op.call "nfs.config" [], err := none },
               { op := Op.call "service.query" [nfsFilter], err := none },
               { op := Op.call "service.query" [nfsFilter], err := none }] :=
            stepsSince_of_trace
              (by rw [t3, t2, t1, List.append_assoc, List.append_assoc]; rfl)
          simp only [h1, h2, h3] at h
          cases hm : mapConfig config (mapServiceState services state.value) with
          | panicked msg =>
            simp only [hm] at h
            rw [hsteps] at h
            simp at h
          | returned model =>
            simp only [hm] at h
            rw [hsteps] at h
            simp at h

theorem docker_read_api_error (R : Remote) (w : World)
    (state : Source ServiceDockerResourceModel) (op : Op) (c : Int) (m d : String)
    (h : { op := op, err := some (GoError.api c m d) } ∈
      stepsSince w (ServiceDockerResource.Read R w state).2) :
    stoppedOnError (ServiceDockerResource.Read R w state).1 ∧
      reportsError (ServiceDockerResource.Read R w state).1.diags (APIError.Error c m d) := by
  unfold ServiceDockerResource.Read at h ⊢
  cases hs : HasError state.getDiags with
  | true => simp [hs, stepsSince_self] at h
  | false =>
    simp only [hs, Bool.false_eq_true, if_false] at h ⊢
    unfold readDocker at h ⊢
    rcases h1 : Call R w "docker.config" [] unmarshalMap with ⟨_ | config, w1⟩
    · next e =>
      simp only [h1] at h ⊢
      rw [stepsSince_of_trace (trace_Call h1)] at h
      simp [errorOf] at h
      obtain ⟨-, rfl⟩ := h
      exact ⟨⟨HasError_AddError _ _ _, rfl⟩, reportsError_AddError _ _ _ _ _⟩
    · have t1 := trace_Call h1
      rcases h2 : Call R w1 "docker.status" [] unmarshalMap with ⟨_ | status, w2⟩
      · next e =>
        have t2 := trace_Call h2
        simp only [h1, h2] at h ⊢
        rw [stepsSince_of_trace (l := _) (by rw [t2, t1, List.append_assoc])] at h
        simp [errorOf] at h
        obtain ⟨-, rfl⟩ := h
        exact ⟨⟨HasError_AddError _ _ _, rfl⟩, reportsError_AddError _ _ _ _ _⟩
      · have t2 := trace_Call h2
        have hsteps : stepsSince w w2 =
            [{ op := Op.call "docker.config" [], err := none },
             { op := Op.call "docker.status" [], err := none }] :=
          stepsSince_of_trace (by rw [t2, t1, List.append_assoc]; rfl)
        simp only [h1, h2] at h
        split at h
        · rw [hsteps] at h
          simp at h
        · rw [hsteps] at h
          simp at h

/-- Counterexample to C5: `nfs.config` fails with the classified not-found error (code 3)
during an NFS read; the read adds an error diagnostic and leaves the state as it was; the
resource is not dropped. -/
theorem nfs_read_not_found_reported :
    stepsSince World.start (ServiceNFSResource.Read notFoundRemote World.start
        { value := nfsModel (Attr.known true), getDiags := [] }).2 =
      [{ op := Op.call "nfs.config" []
         err := some (GoError.api 3 "Resource not found" "") }] ∧
    (ServiceNFSResource.Read notFoundRemote World.start
        { value := nfsModel (Attr.known true), getDiags := [] }).1 =
      Completion.returned
        { diags := [{ severity := Severity.error
                      summary := "Error Reading NFS Service"
                      detail := "Could not read NFS service: failed to get NFS config: " ++
                        "TrueNAS API error 3: Resource not found" }]
          state := StateAction.unchanged } ∧
    HasError [{ severity := Severity.error
                summary := "Error Reading NFS Service"
                detail := "Could not read NFS service: failed to get NFS config: " ++
                  "TrueNAS API error 3: Resource not found" }] = true :=
  ⟨rfl, rfl, rfl⟩

/-- C5, amended: in an NFS read and in a Docker read, a remote call that fails with a
classified error of any code, the not-found code 3 included, ends the read with an error
diagnostic whose detail contains the rendered message of that error, and the state is left
as it was (the resource is not dropped). -/
theorem read_api_error_reported (R : Remote) (w : World) (op : Op) (c : Int) (m d : String) :
    (∀ state : Source ServiceNFSResourceModel,
      { op := op, err := some (GoError.api c m d) } ∈
        stepsSince w (ServiceNFSResource.Read R w state).2 →
      ∃ resp, (ServiceNFSResource.Read R w state).1 = Completion.returned resp ∧
        stoppedOnError resp ∧ reportsError resp.diags (APIError.Error c m d)) ∧
    (∀ state : Source ServiceDockerResourceModel,
      { op := op, err := some (GoError.api c m d) } ∈
        stepsSince w (ServiceDockerResource.Read R w state).2 →
      stoppedOnError (ServiceDockerResource.Read R w state).1 ∧
        reportsError (ServiceDockerResource.Read R w state).1.diags (APIError.Error c m d)) :=
  ⟨fun state h => nfs_read_api_error R w state op c m d h,
   fun state h => docker_read_api_error R w state op c m d h⟩

/-- Witness of C5, amended: the not-found error on the first call of an NFS read and of a
Docker read. -/
theorem read_api_error_reported_witness :
    ({ op := Op.call "nfs.config" [], err := some (GoError.api 3 "Resource not found" "") }
        ∈ stepsSince World.start (ServiceNFSResource.Read notFoundRemote World.start
            { value := nfsModel (Attr.known true), getDiags := [] }).2 ∧
      ∃ resp, (ServiceNFSResource.Read notFoundRemote World.start
          { value := nfsModel (Attr.known true), getDiags := [] }).1
            = Completion.returned resp ∧
        stoppedOnError resp ∧
        reportsError resp.diags (APIError.Error 3 "Resource not found" "")) ∧
    ({ op := Op.call "docker.config" [], err := some (GoError.api 3 "Resource not found" "") }
        ∈ stepsSince World.start (ServiceDockerResource.Read notFoundRemote World.start
            { value := dockerModel (Attr.known "tank"), getDiags := [] }).2 ∧
      stoppedOnError (ServiceDockerResource.Read notFoundRemote World.start
          { value := dockerModel (Attr.known "tank"), getDiags := [] }).1 ∧
      reportsError (ServiceDockerResource.Read notFoundRemote World.start
          { value := dockerModel (Attr.known "tank"), getDiags := [] }).1.diags
        (APIError.Error 3 "Resource not found" "")) :=
  ⟨⟨List.mem_singleton.mpr rfl,
    (read_api_error_reported notFoundRemote World.start (Op.call "nfs.config" []) 3
      "Resource not found" "").1 _ (List.mem_singleton.mpr rfl)⟩,
   ⟨List.mem_singleton.mpr rfl,
    (read_api_error_reported notFoundRemote World.start (Op.call "docker.config" []) 3
      "Resource not found" "").2 _ (List.mem_singleton.mpr rfl)⟩⟩

/-! NFS create -/

theorem readBackAndSet_response (R : Remote) (w : World) (model : ServiceNFSResourceModel)
    (diags : Diagnostics) (detail : String) (hdiags : HasError diags = false)
    (resp : Response ServiceNFSResourceModel)
    (h : (readBackAndSet R w model diags detail).1 = Completion.returned resp) :
    (HasError resp.diags = false →
      ∃ m, resp.state = StateAction.set m ∧ m.ID = Attr.known "nfs") ∧
    (HasError resp.diags = true → resp.state = StateAction.unchanged) := by
  unfold readBackAndSet at h
  split at h
  · cases h
  · cases h
    exact ⟨fun hc => absurd hc (by rw [HasError_AddError]; decide), fun _ => rfl⟩
  · cases h
    exact ⟨fun _ => ⟨_, rfl, rfl⟩, fun hc => absurd hc (by rw [hdiags]; decide)⟩

/-- Counterexample to C6: an NFS create with enabled = true.  On an appliance that follows
the wire protocol and answers `service.start` with the job id 42, the operation that
follows `service.start` is `nfs.config`: no wait on job 42 is part of the history (which
ends at the first `service.query`, whose array answer the read-back cannot decode).  On a
remote that answers the first `service.query` with null and the second with the array, so
that every call of the create succeeds, the history is the five calls below, again without
a wait, and the state is written. -/
theorem nfs_create_start_without_wait :
    ((startingAppliance World.start
        (Op.call "service.start" [JSON.str "nfs", silentFalse])).result
        = Except.ok (JSON.num 42) ∧
      ops (ServiceNFSResource.Create startingAppliance World.start
          { value := nfsModel (Attr.known true), getDiags := [] }).2 =
        [Op.call "nfs.update" [JSON.obj []],
         Op.call "service.start" [JSON.str "nfs", silentFalse],
         Op.call "nfs.config" [],
         Op.call "service.query" [nfsFilter]]) ∧
    ((ServiceNFSResource.Create startingRemote World.start
        { value := nfsModel (Attr.known true), getDiags := [] }).2.trace =
      [{ op := Op.call "nfs.update" [JSON.obj []], err := none },
       { op := Op.call "service.start" [JSON.str "nfs", silentFalse], err := none },
       { op := Op.call "nfs.config" [], err := none },
       { op := Op.call "service.query" [nfsFilter], err := none },
       { op := Op.call "service.query" [nfsFilter], err := none }] ∧
     (ServiceNFSResource.Create startingRemote World.start
        { value := nfsModel (Attr.known true), getDiags := [] }).1 =
      Completion.returned
        { diags := []
          state := StateAction.set
            { nfsModel (Attr.known true) with
              ID := Attr.known "nfs", Servers := Attr.known 4 } }) :=
  ⟨⟨rfl, rfl⟩, ⟨rfl, rfl⟩⟩

/-- C6, amended: in an NFS create in which `nfs.update` succeeds and, when enabled is true,
`service.start` succeeds, the operations are `nfs.update` with the built payload, then,
when enabled is true, `service.start` on `nfs`, and directly after it the calls of the
read-back and nothing else: the result of `service.start` is discarded and no job is
awaited.  When enabled is false no lifecycle call is issued.  A create that returns
without error diagnostic has written the state, and one that returns with an error
diagnostic has left it as it was. -/
theorem nfs_create_trace (R : Remote) (w : World) (plan : Source ServiceNFSResourceModel)
    (result : GoMap)
    (hplan : HasError plan.getDiags = false)
    (hbuild : HasError (buildConfigData plan.value plan.getDiags).2 = false)
    (hupdate : (Call R w "nfs.update"
        [JSON.obj (buildConfigData plan.value plan.getDiags).1] unmarshalMap).1
        = Except.ok result)
    (hstart : plan.value.Enabled.ValueBool = true →
      (Call R
        (Call R w "nfs.update"
          [JSON.obj (buildConfigData plan.value plan.getDiags).1] unmarshalMap).2
        "service.start" lifecycleParams unmarshalNil).1 = Except.ok ()) :
    ∃ rest,
      ops (ServiceNFSResource.Create R w plan).2 =
        ops w ++ [Op.call "nfs.update" [JSON.obj (buildConfigData plan.value plan.getDiags).1]]
          ++ (if plan.value.Enabled.ValueBool = true
              then [Op.call "service.start" [JSON.str "nfs", silentFalse]] else [])
          ++ rest ∧
      (∀ op ∈ rest, isReadCall op) ∧
      ∀ resp, (ServiceNFSResource.Create R w plan).1 = Completion.returned resp →
        (HasError resp.diags = false →
          ∃ m, resp.state = StateAction.set m ∧ m.ID = Attr.known "nfs") ∧
        (HasError resp.diags = true → resp.state = StateAction.unchanged) := by
  unfold ServiceNFSResource.Create
  simp only [hplan, hbuild, Bool.false_eq_true, if_false]
  rcases h1 : Call R w "nfs.update" [JSON.obj (buildConfigData plan.value plan.getDiags).1]
    unmarshalMap with ⟨_ | r, w1⟩
  · rw [h1] at hupdate
    cases hupdate
  · rw [h1] at hstart
    simp only [] at hstart
    cases hen : plan.value.Enabled.ValueBool with
    | false =>
      simp only [Bool.false_eq_true, if_false]
      obtain ⟨rest, hr, hrest⟩ := ops_readBackAndSet R w1 plan.value
        (buildConfigData plan.value plan.getDiags).2
        "Could not read NFS service after configuration: "
      refine ⟨rest, ?_, hrest, ?_⟩
      · simp [hr, ops_of_Call h1]
      · intro resp hresp
        exact readBackAndSet_response R w1 plan.value _ _ hbuild resp hresp
    | true =>
      have hs := hstart hen
      simp only [if_true]
      rcases h2 : Call R w1 "service.start" lifecycleParams unmarshalNil with ⟨_ | u, w2⟩
      · rw [h2] at hs
        cases hs
      · simp only []
        obtain ⟨rest, hr, hrest⟩ := ops_readBackAndSet R w2 plan.value
          (buildConfigData plan.value plan.getDiags).2
          "Could not read NFS service after configuration: "
        refine ⟨rest, ?_, hrest, ?_⟩
        · simp [hr, ops_of_Call h2, ops_of_Call h1, lifecycleParams]
        · intro resp hresp
          exact readBackAndSet_response R w2 plan.value _ _ hbuild resp hresp

/-- Witness of C6, amended: the create with enabled = true on the appliance that follows
the wire protocol; `nfs.update` and `service.start` succeed there. -/
theorem nfs_create_trace_witness :
    ((Call startingAppliance World.start "nfs.update"
        [JSON.obj (buildConfigData (nfsModel (Attr.known true)) []).1] unmarshalMap).1
        = Except.ok [("servers", JSON.num 4), ("v4", JSON.bool true)] ∧
      ops (ServiceNFSResource.Create startingAppliance World.start
          { value := nfsModel (Attr.known true), getDiags := [] }).2 =
        [Op.call "nfs.update" [JSON.obj []],
         Op.call "service.start" [JSON.str "nfs", silentFalse],
         Op.call "nfs.config" [],
         Op.call "service.query" [nfsFilter]]) ∧
    ∃ rest,
      ops (ServiceNFSResource.Create startingAppliance World.start
          { value := nfsModel (Attr.known true), getDiags := [] }).2 =
        ops World.start
          ++ [Op.call "nfs.update"
                [JSON.obj (buildConfigData (nfsModel (Attr.known true)) []).1]]
          ++ (if (nfsModel (Attr.known true)).Enabled.ValueBool = true
              then [Op.call "service.start" [JSON.str "nfs", silentFalse]] else [])
          ++ rest ∧
      (∀ op ∈ rest, isReadCall op) ∧
      ∀ resp, (ServiceNFSResource.Create startingAppliance World.start
          { value := nfsModel (Attr.known true), getDiags := [] }).1
            = Completion.returned resp →
        (HasError resp.diags = false →
          ∃ m, resp.state = StateAction.set m ∧ m.ID = Attr.known "nfs") ∧
        (HasError resp.diags = true → resp.state = StateAction.unchanged) :=
  ⟨⟨rfl, rfl⟩,
   nfs_create_trace startingAppliance World.start
     { value := nfsModel (Attr.known true), getDiags := [] }
     [("servers", JSON.num 4), ("v4", JSON.bool true)] rfl rfl rfl (fun _ => rfl)⟩

/-- An NFS create with enabled = false against a remote that answers `null` throughout:
no lifecycle call is part of the history. -/
theorem nfs_create_disabled_trace :
    ops (ServiceNFSResource.Create (scripted []) World.start
        { value := nfsModel (Attr.known false), getDiags := [] }).2 =
      [Op.call "nfs.update" [JSON.obj []], Op.call "nfs.config" [],
       Op.call "service.query" [nfsFilter], Op.call "service.query" [nfsFilter]] := by
  rfl

/-! The decoding of a number into `float64` and its conversion to `int64` -/

theorem log2Loop_spec : ∀ (fuel n : Nat), 0 < n → n ≤ fuel →
    2 ^ log2Loop fuel n ≤ n ∧ n < 2 ^ (log2Loop fuel n + 1) := by
  intro fuel
  induction fuel with
  | zero => intro n h0 h1; omega
  | succ fuel ih =>
    intro n h0 h1
    unfold log2Loop
    by_cases h2 : 2 ≤ n
    · simp only [h2, if_true]
      have h3 := ih (n / 2) (by omega) (by omega)
      have e1 : 2 ^ (log2Loop fuel (n / 2) + 1) = 2 * 2 ^ log2Loop fuel (n / 2) := by
        rw [Nat.pow_succ]; ring
      have e2 : 2 ^ (log2Loop fuel (n / 2) + 1 + 1) = 4 * 2 ^ log2Loop fuel (n / 2) := by
        rw [Nat.pow_succ, Nat.pow_succ]; ring
      rw [e1] at h3
      rw [e1, e2]
      omega
    · simp only [h2, if_false]
      omega

theorem floorLog2_spec (n : Nat) (h : 0 < n) :
    2 ^ floorLog2 n ≤ n ∧ n < 2 ^ (floorLog2 n + 1) :=
  log2Loop_spec n n h (Nat.le_refl n)

theorem floorLog2_lt_of_lt_pow (n k : Nat) (h : 0 < n) (hk : n < 2 ^ k) :
    floorLog2 n < k := by
  by_contra hc
  have h1 := (floorLog2_spec n h).1
  have h2 : 2 ^ k ≤ 2 ^ floorLog2 n := Nat.pow_le_pow_right (by decide) (by omega)
  omega

theorem roundFloat64_exact (neg : Bool) (a : Nat) (ha : 0 < a) (h : a < 2 ^ 53) :
    roundFloat64 neg a 1 =
      some { neg := neg, mant := a * 2 ^ (52 - floorLog2 a)
             exp := (floorLog2 a : Int) - 52 } := by
  have hl := floorLog2_lt_of_lt_pow a 53 ha h
  have hs := (floorLog2_spec a ha).1
  have h1 : floorLog2 1 = 0 := by decide
  have hr : floorLog2Ratio a 1 = (floorLog2 a : Int) := by
    unfold floorLog2Ratio
    simp only [h1, Nat.cast_zero, sub_zero, Int.toNat_ofNat, Int.toNat_neg_nat, pow_zero,
      mul_one, one_mul]
    simp [hs]
  have he : max ((floorLog2 a : Int) - 52) (-1074) = (floorLog2 a : Int) - 52 := by omega
  have hn : (-((floorLog2 a : Int) - 52)).toNat = 52 - floorLog2 a := by omega
  have hp : ((floorLog2 a : Int) - 52).toNat = 0 := by omega
  unfold roundFloat64
  have ha' : ¬ a = 0 := by omega
  simp only [ha', if_false, hr, he, hn, hp, pow_zero, mul_one, Nat.div_one, Nat.mod_one]
  have h971 : ¬ ((971 : Int) < (floorLog2 a : Int) - 52 ∨
      ((floorLog2 a : Int) - 52 = 971 ∧ 2 ^ 53 ≤ a * 2 ^ (52 - floorLog2 a))) := by omega
  have hround : ¬ (1 < 2 * 0 ∨ (2 * 0 = 1 ∧ a * 2 ^ (52 - floorLog2 a) % 2 = 1)) := by omega
  rw [if_neg hround, if_neg h971]

/-- An integer of magnitude below 2^53 survives the decoding into `float64` and the
conversion `int64` unchanged. -/
theorem int64_float64_exact (n : Int) (h : n.natAbs < 2 ^ 53) :
    ∃ f, float64Of (JSON.num n) = some f ∧ int64 f = n := by
  by_cases h0 : n.natAbs = 0
  · have hn : n = 0 := Int.natAbs_eq_zero.mp h0
    subst hn
    exact ⟨_, rfl, by decide⟩
  · have ha : 0 < n.natAbs := by omega
    have hl := floorLog2_lt_of_lt_pow n.natAbs 53 ha h
    refine ⟨_, roundFloat64_exact (decide (n < 0)) n.natAbs ha h, ?_⟩
    have hn : (-((floorLog2 n.natAbs : Int) - 52)).toNat = 52 - floorLog2 n.natAbs := by omega
    have hp : ((floorLog2 n.natAbs : Int) - 52).toNat = 0 := by omega
    have hpos : 0 < 2 ^ (52 - floorLog2 n.natAbs) := Nat.pow_pos (by decide)
    simp only [int64, hn, hp, pow_zero, mul_one, Nat.mul_div_cancel _ hpos]
    have h53 : (2 : Nat) ^ 53 = 9007199254740992 := by norm_num
    rw [h53] at h
    by_cases hneg : n < 0
    · simp only [hneg, decide_True, if_true]
      have : -(n.natAbs : Int) = n := by omega
      rw [this]
      have hr : -9223372036854775808 ≤ n ∧ n < 9223372036854775808 := by omega
      rw [if_pos hr]
    · simp only [hneg, decide_False, Bool.false_eq_true, if_false]
      have : (n.natAbs : Int) = n := by omega
      rw [this]
      have hr : -9223372036854775808 ≤ n ∧ n < 9223372036854775808 := by omega
      rw [if_pos hr]

theorem unmarshalFloat64_int (n : Int) (h : n.natAbs < 2 ^ 53) :
    ∃ f, unmarshalFloat64 (JSON.num n) = Except.ok f ∧ int64 f = n := by
  obtain ⟨f, hf, hi⟩ := int64_float64_exact n h
  exact ⟨f, by simp [unmarshalFloat64, hf], hi⟩

/-- The conversion at work: 17 and 42 are kept, 9007199254740993 has no `float64` of its
own and becomes 9007199254740992, 9007199254740995 lies halfway and goes to the even
mantissa, 17.9 and -17.9 lose their fraction, and 1e19 is beyond the range of `int64`. -/
theorem int64_float64_rows :
    (float64Of (JSON.num 17)).map int64 = some 17 ∧
    (float64Of (JSON.num 42)).map int64 = some 42 ∧
    (float64Of (JSON.num 9007199254740993)).map int64 = some 9007199254740992 ∧
    (float64Of (JSON.num 9007199254740995)).map int64 = some 9007199254740996 ∧
    (float64Of (JSON.real 179 (-1))).map int64 = some 17 ∧
    (float64Of (JSON.real (-179) (-1))).map int64 = some (-17) ∧
    (float64Of (JSON.real 1 19)).map int64 = some (-9223372036854775808) := by
  decide

/-- A number beyond the range of `float64` decodes to nothing: 1e400, and the first
decimal past the largest `float64`; the largest `float64` itself decodes. -/
theorem float64Of_range :
    (float64Of (JSON.real 1 400)).isSome = false ∧
    (float64Of (JSON.real 17976931348623159 292)).isSome = false ∧
    (float64Of (JSON.real 17976931348623157 292)).isSome = true := by
  decide!

/-! Docker delete and the Docker payload -/

theorem ops_WaitForJob (R : Remote) (w : World) (jobID : Int) (timeout : Nat) :
    ops (WaitForJob R w jobID timeout).2 = ops w ++ [Op.waitForJob jobID timeout] := by
  simp [ops, WaitForJob]

theorem Call_result {α : Type} (R : Remote) (w : World) (method : String)
    (params : List JSON) (unmarshal : JSON → Except GoError α) :
    (Call R w method params unmarshal).1 =
      match (R w (Op.call method params)).result with
      | Except.error e => Except.error e
      | Except.ok v => unmarshal v := rfl

theorem delete_after_update (R : Remote) (w w1 : World) (jobID : Float64)
    (h1 : Call R w "docker.update" [JSON.obj [("pool", JSON.null)]] unmarshalFloat64
      = (Except.ok jobID, w1)) :
    (ServiceDockerResource.Delete R w).2 = (WaitForJob R w1 (int64 jobID) (5 * minute)).2 ∧
    ops (ServiceDockerResource.Delete R w).2 =
      ops w ++ [Op.call "docker.update" [JSON.obj [("pool", JSON.null)]],
                Op.waitForJob (int64 jobID) 300000000000] ∧
    (HasError (ServiceDockerResource.Delete R w).1.diags = true ↔
      ∃ e, (WaitForJob R w1 (int64 jobID) (5 * minute)).1 = Except.error e) := by
  have hw := ops_WaitForJob R w1 (int64 jobID) (5 * minute)
  rcases h2 : WaitForJob R w1 (int64 jobID) (5 * minute) with ⟨_ | r, w2⟩
  · rw [h2] at hw
    simp only [ServiceDockerResource.Delete, h1, h2]
    refine ⟨trivial, ?_, ?_⟩
    · simp only [] at hw ⊢
      rw [hw, ops_of_Call h1]
      simp [minute, second]
    · simp [HasError_AddError]
  · rw [h2] at hw
    simp only [ServiceDockerResource.Delete, h1, h2]
    refine ⟨trivial, ?_, ?_⟩
    · simp only [] at hw ⊢
      rw [hw, ops_of_Call h1]
      simp [minute, second]
    · simp [HasError]

/-- C7: a Docker delete issues `docker.update` with the payload whose one entry is
pool = null.  When that call fails (the appliance answers with an error, or with a value
that does not decode into `float64`), nothing follows it and an error diagnostic is added.
When the appliance answers a value v that decodes into the `float64` jobID, the one further
operation is the wait on the job `int64(jobID)` with a timeout of five minutes, and an
error diagnostic is added if and only if that wait fails.  For an answer that is an
integer n of magnitude below 2^53 the job awaited is n itself. -/
theorem docker_delete_trace (R : Remote) (w : World) :
    ((∃ e w1,
        Call R w "docker.update" [JSON.obj [("pool", JSON.null)]] unmarshalFloat64
          = (Except.error e, w1) ∧
        ((R w (Op.call "docker.update" [JSON.obj [("pool", JSON.null)]])).result
            = Except.error e ∨
          ∃ v, (R w (Op.call "docker.update" [JSON.obj [("pool", JSON.null)]])).result
              = Except.ok v ∧ unmarshalFloat64 v = Except.error e) ∧
        (ServiceDockerResource.Delete R w).2 = w1 ∧
        ops (ServiceDockerResource.Delete R w).2 =
          ops w ++ [Op.call "docker.update" [JSON.obj [("pool", JSON.null)]]] ∧
        HasError (ServiceDockerResource.Delete R w).1.diags = true) ∨
      (∃ v jobID w1,
        (R w (Op.call "docker.update" [JSON.obj [("pool", JSON.null)]])).result
          = Except.ok v ∧
        unmarshalFloat64 v = Except.ok jobID ∧
        Call R w "docker.update" [JSON.obj [("pool", JSON.null)]] unmarshalFloat64
          = (Except.ok jobID, w1) ∧
        (ServiceDockerResource.Delete R w).2 =
          (WaitForJob R w1 (int64 jobID) (5 * minute)).2 ∧
        ops (ServiceDockerResource.Delete R w).2 =
          ops w ++ [Op.call "docker.update" [JSON.obj [("pool", JSON.null)]],
                    Op.waitForJob (int64 jobID) 300000000000] ∧
        (HasError (ServiceDockerResource.Delete R w).1.diags = true ↔
          ∃ e, (WaitForJob R w1 (int64 jobID) (5 * minute)).1 = Except.error e))) ∧
    (∀ n : Int, n.natAbs < 2 ^ 53 →
      (R w (Op.call "docker.update" [JSON.obj [("pool", JSON.null)]])).result
        = Except.ok (JSON.num n) →
      ops (ServiceDockerResource.Delete R w).2 =
        ops w ++ [Op.call "docker.update" [JSON.obj [("pool", JSON.null)]],
                  Op.waitForJob n 300000000000]) := by
  have hres := Call_result R w "docker.update" [JSON.obj [("pool", JSON.null)]]
    unmarshalFloat64
  constructor
  · rcases h1 : Call R w "docker.update" [JSON.obj [("pool", JSON.null)]] unmarshalFloat64
      with ⟨_ | jobID, w1⟩
    · next e =>
      left
      refine ⟨e, w1, rfl, ?_, ?_⟩
      · rw [h1] at hres
        simp only [] at hres
        cases hr : (R w (Op.call "docker.update" [JSON.obj [("pool", JSON.null)]])).result with
        | error e' =>
          rw [hr] at hres
          simp only [] at hres
          cases hres
          exact Or.inl rfl
        | ok v =>
          rw [hr] at hres
          simp only [] at hres
          exact Or.inr ⟨v, rfl, hres.symm⟩
      · simp only [ServiceDockerResource.Delete, h1]
        exact ⟨trivial, ops_of_Call h1, HasError_AddError _ _ _⟩
    · right
      rw [h1] at hres
      simp only [] at hres
      cases hr : (R w (Op.call "docker.update" [JSON.obj [("pool", JSON.null)]])).result with
      | error e' =>
        rw [hr] at hres
        simp only [] at hres
        cases hres
      | ok v =>
        rw [hr] at hres
        simp only [] at hres
        exact ⟨v, jobID, w1, rfl, hres.symm, rfl, delete_after_update R w w1 jobID h1⟩
  · intro n hn hr
    obtain ⟨f, hf, hi⟩ := unmarshalFloat64_int n hn
    rw [hr] at hres
    simp only [] at hres
    rw [hf] at hres
    have h1 : Call R w "docker.update" [JSON.obj [("pool", JSON.null)]] unmarshalFloat64
        = (Except.ok f, (Call R w "docker.update" [JSON.obj [("pool", JSON.null)]]
            unmarshalFloat64).2) := by
      rw [← hres]
    have h2 := (delete_after_update R w _ f h1).2.1
    rw [hi] at h2
    exact h2

/-- Witness of C7: the appliance answers the job id 17 and the delete waits on job 17;
an answer of 9007199254740993 is awaited as 9007199254740992 and an answer of 17.9 as 17,
what `int64` of the decoded `float64` gives. -/
theorem docker_delete_trace_witness :
    ((ServiceDockerResource.Delete (scripted [Except.ok (JSON.num 17)]) World.start).1.diags
        = [] ∧
      ops (ServiceDockerResource.Delete
          (scripted [Except.ok (JSON.num 9007199254740993)]) World.start).2 =
        [Op.call "docker.update" [JSON.obj [("pool", JSON.null)]],
         Op.waitForJob 9007199254740992 300000000000] ∧
      ops (ServiceDockerResource.Delete
          (scripted [Except.ok (JSON.real 179 (-1))]) World.start).2 =
        [Op.call "docker.update" [JSON.obj [("pool", JSON.null)]],
         Op.waitForJob 17 300000000000] ∧
      ops (ServiceDockerResource.Delete
          (scripted [Except.ok (JSON.str "17")]) World.start).2 =
        [Op.call "docker.update" [JSON.obj [("pool", JSON.null)]]]) ∧
    ops (ServiceDockerResource.Delete (scripted [Except.ok (JSON.num 17)]) World.start).2 =
      ops World.start ++ [Op.call "docker.update" [JSON.obj [("pool", JSON.null)]],
                          Op.waitForJob 17 300000000000] :=
  ⟨⟨rfl, rfl, rfl, rfl⟩,
   (docker_delete_trace (scripted [Except.ok (JSON.num 17)]) World.start).2 17
     (by decide) rfl⟩

/-- A Docker delete whose `docker.update` answers the job id 17: the update, the wait on
job 17 for five minutes, and no diagnostic. -/
theorem docker_delete_job_17 :
    (ServiceDockerResource.Delete (scripted [Except.ok (JSON.num 17)]) World.start).2.trace =
      [{ op := Op.call "docker.update" [JSON.obj [("pool", JSON.null)]], err := none },
       { op := Op.waitForJob 17 300000000000, err := none }] ∧
    (ServiceDockerResource.Delete (scripted [Except.ok (JSON.num 17)]) World.start).1.diags
      = [] :=
  ⟨rfl, rfl⟩

theorem updateData_keys (plan : ServiceDockerResourceModel) :
    lookupKey "pool" (updateData plan) = some (JSON.str plan.Pool.ValueString) ∧
    lookupKey "nvidia" (updateData plan) = sent JSON.bool plan.NvidiaEnabled ∧
    lookupKey "enable_image_updates" (updateData plan) =
      sent JSON.bool plan.EnableImageUpdates ∧
    (∀ k, k ≠ "pool" → k ≠ "nvidia" → k ≠ "enable_image_updates" →
      lookupKey k (updateData plan) = none) := by
  refine ⟨?_, ?_, ?_, ?_⟩
  · simp [updateData, lookupKey_setKeyIf, lookupKey]
  · simp only [updateData, lookupKey_setKeyIf]
    cases plan.NvidiaEnabled <;>
      simp [sent, lookupKey, Attr.IsNull, Attr.IsUnknown, Attr.ValueBool]
  · simp only [updateData, lookupKey_setKeyIf]
    cases plan.EnableImageUpdates <;>
      simp [sent, lookupKey, Attr.IsNull, Attr.IsUnknown, Attr.ValueBool]
  · intro k h1 h2 h3
    simp [updateData, lookupKey_setKeyIf, lookupKey, Ne.symm h1, Ne.symm h2, Ne.symm h3]

theorem updateDocker_first_op (R : Remote) (w : World) (plan : ServiceDockerResourceModel) :
    ∃ rest, ops (updateDocker R w plan).2 =
      ops w ++ Op.call "docker.update" [JSON.obj (updateData plan)] :: rest := by
  unfold updateDocker
  rcases h1 : Call R w "docker.update" [JSON.obj (updateData plan)] unmarshalFloat64
    with ⟨_ | jobID, w1⟩
  · exact ⟨[], by simp [ops_of_Call h1]⟩
  · have hw := ops_WaitForJob R w1 (int64 jobID) (5 * minute)
    rcases h2 : WaitForJob R w1 (int64 jobID) (5 * minute) with ⟨_ | r, w2⟩ <;>
      · rw [h2] at hw
        simp only [] at hw
        exact ⟨[Op.waitForJob (int64 jobID) (5 * minute)],
          by simp [h2, hw, ops_of_Call h1]⟩

/-- C8: for every Docker plan whose pool is set, which the schema requires of every plan,
the payload that `updateDocker` sends with `docker.update` holds, under each of the keys
pool, nvidia and enable_image_updates, exactly what `sent` gives for the plan field: the
value of the plan when the field is known, and no entry when it is null or unknown; and it
holds no other key. -/
theorem docker_update_payload (R : Remote) (w : World) (plan : ServiceDockerResourceModel)
    (hpool : plan.Pool.IsNull = false ∧ plan.Pool.IsUnknown = false) :
    lookupKey "pool" (updateData plan) = sent JSON.str plan.Pool ∧
    lookupKey "nvidia" (updateData plan) = sent JSON.bool plan.NvidiaEnabled ∧
    lookupKey "enable_image_updates" (updateData plan) =
      sent JSON.bool plan.EnableImageUpdates ∧
    (∀ k, k ≠ "pool" → k ≠ "nvidia" → k ≠ "enable_image_updates" →
      lookupKey k (updateData plan) = none) ∧
    ∃ rest, ops (updateDocker R w plan).2 =
      ops w ++ Op.call "docker.update" [JSON.obj (updateData plan)] :: rest := by
  obtain ⟨h1, h2, h3, h4⟩ := updateData_keys plan
  refine ⟨?_, h2, h3, h4, updateDocker_first_op R w plan⟩
  rw [h1]
  cases hp : plan.Pool with
  | null => rw [hp] at hpool; simp [Attr.IsNull] at hpool
  | unknown => rw [hp] at hpool; simp [Attr.IsUnknown] at hpool
  | known pool => rfl

/-- Witness of C8: a plan with the pool `tank`, nvidia set and enable_image_updates set;
and a plan with the pool alone, whose payload has the one key pool. -/
theorem docker_update_payload_witness :
    (updateData sampleDockerPlan =
        [("pool", JSON.str "tank"), ("nvidia", JSON.bool true),
         ("enable_image_updates", JSON.bool false)] ∧
      updateData (dockerModel (Attr.known "tank")) = [("pool", JSON.str "tank")]) ∧
    (lookupKey "pool" (updateData sampleDockerPlan) = sent JSON.str sampleDockerPlan.Pool ∧
      lookupKey "nvidia" (updateData sampleDockerPlan) =
        sent JSON.bool sampleDockerPlan.NvidiaEnabled ∧
      lookupKey "enable_image_updates" (updateData sampleDockerPlan) =
        sent JSON.bool sampleDockerPlan.EnableImageUpdates ∧
      (∀ k, k ≠ "pool" → k ≠ "nvidia" → k ≠ "enable_image_updates" →
        lookupKey k (updateData sampleDockerPlan) = none) ∧
      ∃ rest, ops (updateDocker (scripted []) World.start sampleDockerPlan).2 =
        ops World.start ++
          Op.call "docker.update" [JSON.obj (updateData sampleDockerPlan)] :: rest) :=
  ⟨⟨rfl, rfl⟩,
   docker_update_payload (scripted []) World.start sampleDockerPlan ⟨rfl, rfl⟩⟩

/-! The NFS read-back against the wire protocol -/

theorem unmarshal_map_and_maps (v : JSON) (m : GoMap) (ms : List GoMap)
    (h1 : unmarshalMap v = Except.ok m) (h2 : unmarshalMaps v = Except.ok ms) :
    v = JSON.null := by
  cases v <;> simp [unmarshalMap, unmarshalMaps] at h1 h2 ⊢

theorem readService_array_answer (R : Remote) (w w1 : World) (model : ServiceNFSResourceModel)
    (config : GoMap) (xs : List JSON)
    (h1 : Call R w "nfs.config" [] unmarshalMap = (Except.ok config, w1))
    (h2 : (R w1 (Op.call "service.query" [nfsFilter])).result = Except.ok (JSON.arr xs)) :
    (readService R w model).1 =
      Completion.returned
        (some (GoError.wrap "failed to get service state: "
          (GoError.other "json: cannot unmarshal value into a map")), model) := by
  have hc : (Call R w1 "service.query" [nfsFilter] unmarshalMap).1 =
      Except.error (GoError.other "json: cannot unmarshal value into a map") := by
    simp [Call, h2, unmarshalMap]
  unfold readService
  simp only [h1]
  rcases h3 : Call R w1 "service.query" [nfsFilter] unmarshalMap with ⟨r, w2⟩
  rw [h3] at hc
  simp only [] at hc
  subst hc
  rfl

/-- C9 at the failing input: the appliance answers `nfs.config` with a config object and
`service.query` with the array of service states, NFS running.  The read-back stops at the
first `service.query`, whose result it decodes into a map, and returns an error; the model
is left as it was and a read reports an error instead of enabled = true. -/
theorem nfs_readback_running_fails :
    (runningAppliance World.start (Op.call "service.query" [nfsFilter])).result =
      Except.ok (JSON.arr [JSON.obj [("service", JSON.str "nfs"),
                                     ("state", JSON.str "RUNNING")]]) ∧
    (readService runningAppliance World.start (nfsModel Attr.null)).1 =
      Completion.returned
        (some (GoError.wrap "failed to get service state: "
          (GoError.other "json: cannot unmarshal value into a map")), nfsModel Attr.null) ∧
    ops (readService runningAppliance World.start (nfsModel Attr.null)).2 =
      [Op.call "nfs.config" [], Op.call "service.query" [nfsFilter]] ∧
    (ServiceNFSResource.Read runningAppliance World.start
        { value := nfsModel Attr.null, getDiags := [] }).1 =
      Completion.returned
        { diags := [{ severity := Severity.error
                      summary := "Error Reading NFS Service"
                      detail := "Could not read NFS service: failed to get service state: " ++
                        "json: cannot unmarshal value into a map" }]
          state := StateAction.unchanged } :=
  ⟨rfl, rfl, rfl, rfl⟩

/-! The error classifier -/

/-- C10: `IsNotFoundError` holds exactly of an API error with code 3, `IsAuthError` exactly
of an API error with code 1 or 2, `IsValidationError` exactly of an API error with code 4;
all three are false of nil, of an error that is not an API error and of an API error with
another code, -32603 included; and none depends on the message or the details. -/
theorem error_classification (e : Option GoError) :
    (IsNotFoundError e = true ↔ ∃ m d, e = some (GoError.api 3 m d)) ∧
    (IsAuthError e = true ↔
      ∃ c m d, e = some (GoError.api c m d) ∧ (c = 1 ∨ c = 2)) ∧
    (IsValidationError e = true ↔ ∃ m d, e = some (GoError.api 4 m d)) ∧
    (IsNotFoundError none = false ∧ IsAuthError none = false ∧
      IsValidationError none = false) ∧
    ((∀ c m d, e ≠ some (GoError.api c m d)) →
      IsNotFoundError e = false ∧ IsAuthError e = false ∧ IsValidationError e = false) ∧
    (∀ c m d, c ≠ 1 → c ≠ 2 → c ≠ 3 → c ≠ 4 →
      IsNotFoundError (some (GoError.api c m d)) = false ∧
      IsAuthError (some (GoError.api c m d)) = false ∧
      IsValidationError (some (GoError.api c m d)) = false) ∧
    (∀ m d, IsNotFoundError (some (GoError.api (-32603) m d)) = false ∧
      IsAuthError (some (GoError.api (-32603) m d)) = false ∧
      IsValidationError (some (GoError.api (-32603) m d)) = false) ∧
    (∀ c m d m' d',
      IsNotFoundError (some (GoError.api c m d)) = IsNotFoundError (some (GoError.api c m' d')) ∧
      IsAuthError (some (GoError.api c m d)) = IsAuthError (some (GoError.api c m' d')) ∧
      IsValidationError (some (GoError.api c m d)) =
        IsValidationError (some (GoError.api c m' d'))) := by
  have key : ∀ c : Int, ∀ m d : String,
      (IsNotFoundError (some (GoError.api c m d)) = true ↔ c = 3) ∧
      (IsAuthError (some (GoError.api c m d)) = true ↔ (c = 1 ∨ c = 2)) ∧
      (IsValidationError (some (GoError.api c m d)) = true ↔ c = 4) := by
    intro c m d
    simp only [IsNotFoundError, IsAuthError, IsValidationError, classify,
      ErrCodeNotAuthenticated, ErrCodeNotAuthorized, ErrCodeNotFound, ErrCodeValidation,
      ErrCodeInternalError]
    refine ⟨?_, ?_, ?_⟩ <;> split_ifs <;> simp <;> omega
  refine ⟨?_, ?_, ?_, ⟨rfl, rfl, rfl⟩, ?_, ?_, ?_, ?_⟩
  · cases e with
    | none => simp [IsNotFoundError]
    | some g =>
      cases g with
      | api c m d => simp [(key c m d).1]
      | other msg => simp [IsNotFoundError]
      | wrap context inner => simp [IsNotFoundError]
  · cases e with
    | none => simp [IsAuthError]
    | some g =>
      cases g with
      | api c m d => simp [(key c m d).2.1]
      | other msg => simp [IsAuthError]
      | wrap context inner => simp [IsAuthError]
  · cases e with
    | none => simp [IsValidationError]
    | some g =>
      cases g with
      | api c m d => simp [(key c m d).2.2]
      | other msg => simp [IsValidationError]
      | wrap context inner => simp [IsValidationError]
  · intro h
    cases e with
    | none => exact ⟨rfl, rfl, rfl⟩
    | some g =>
      cases g with
      | api c m d => exact absurd rfl (h c m d)
      | other msg => exact ⟨rfl, rfl, rfl⟩
      | wrap context inner => exact ⟨rfl, rfl, rfl⟩
  · intro c m d h1 h2 h3 h4
    have k := key c m d
    refine ⟨?_, ?_, ?_⟩
    · rw [Bool.eq_false_iff]; intro h; exact h3 (k.1.mp h)
    · rw [Bool.eq_false_iff]; intro h; rcases k.2.1.mp h with h | h
      · exact h1 h
      · exact h2 h
    · rw [Bool.eq_false_iff]; intro h; exact h4 (k.2.2.mp h)
  · intro m d
    exact ⟨rfl, rfl, rfl⟩
  · intro c m d m' d'
    exact ⟨rfl, rfl, rfl⟩

/-- Witness of C10: the rows of `TestAPIError`, `TestIsNotFoundError` and
`TestIsAuthError`, and the statement at the not-found error. -/
theorem error_classification_witness :
    (IsNotFoundError (some (GoError.api ErrCodeNotFound "not found" "")) = true ∧
     IsNotFoundError (some (GoError.api ErrCodeInternalError "internal" "")) = false ∧
     IsNotFoundError (some (GoError.other "some error")) = false ∧
     IsNotFoundError none = false ∧
     IsAuthError (some (GoError.api ErrCodeNotAuthenticated "not authenticated" "")) = true ∧
     IsAuthError (some (GoError.api ErrCodeNotAuthorized "not authorized" "")) = true ∧
     IsAuthError (some (GoError.api ErrCodeNotFound "not found" "")) = false ∧
     IsAuthError (some (GoError.other "some error")) = false ∧
     IsValidationError (some (GoError.api ErrCodeValidation "Invalid input" "")) = true ∧
     IsValidationError
       (some (GoError.api ErrCodeInternalError "Internal error" "Stack trace here")) = false) ∧
    (IsNotFoundError (some (GoError.api 3 "not found" "")) = true ↔
      ∃ m d, some (GoError.api 3 "not found" "") = some (GoError.api 3 m d)) :=
  ⟨⟨rfl, rfl, rfl, rfl, rfl, rfl, rfl, rfl, rfl, rfl⟩,
   (error_classification (some (GoError.api 3 "not found" ""))).1⟩

/-! The rendering of an API error -/

theorem renderInt_eq_toString (c : Int) : renderInt c = toString c := by
  cases c with
  | ofNat n =>
    have h : ¬ (Int.ofNat n < 0) := by simp
    simp only [renderInt, h, if_false]
    rfl
  | negSucc n =>
    have h : Int.negSucc n < 0 := Int.negSucc_lt_zero n
    simp only [renderInt, h, if_true]
    rfl

/-- C11: the text of an API error with code c, message m and details d is
`TrueNAS API error `, the decimal rendering of c (the digits of its absolute value, after a
`-` when c is negative), `: ` and m when d is empty, and that same text followed by ` (`,
d and `)` when d is not empty. -/
theorem apiError_rendering (c : Int) (m d : String) :
    (d = "" → APIError.Error c m d = "TrueNAS API error " ++ renderInt c ++ ": " ++ m) ∧
    (d ≠ "" →
      APIError.Error c m d =
        "TrueNAS API error " ++ renderInt c ++ ": " ++ m ++ " (" ++ d ++ ")") ∧
    (0 ≤ c → renderInt c = Nat.repr c.natAbs) ∧
    (c < 0 → renderInt c = "-" ++ Nat.repr c.natAbs) ∧
    (GoError.api c m d).Error = APIError.Error c m d := by
  refine ⟨?_, ?_, ?_, ?_, rfl⟩
  · intro h
    simp [APIError.Error, h]
  · intro h
    simp [APIError.Error, h]
  · intro h
    have h' : ¬ c < 0 := by omega
    simp only [renderInt, h', if_false]
    rfl
  · intro h
    simp only [renderInt, h, if_true]
    rfl

/-- Witness of C11: the five rows of `TestAPIError`, and the statement at the row with
details. -/
theorem apiError_rendering_witness :
    (APIError.Error ErrCodeNotFound "Resource not found" ""
        = "TrueNAS API error 3: Resource not found" ∧
     APIError.Error ErrCodeNotAuthenticated "Not authenticated" ""
        = "TrueNAS API error 1: Not authenticated" ∧
     APIError.Error ErrCodeNotAuthorized "Not authorized" ""
        = "TrueNAS API error 2: Not authorized" ∧
     APIError.Error ErrCodeValidation "Invalid input" ""
        = "TrueNAS API error 4: Invalid input" ∧
     APIError.Error ErrCodeInternalError "Internal error" "Stack trace here"
        = "TrueNAS API error -32603: Internal error (Stack trace here)") ∧
    APIError.Error (-32603) "Internal error" "Stack trace here" =
      "TrueNAS API error " ++ renderInt (-32603) ++ ": " ++ "Internal error" ++ " (" ++
        "Stack trace here" ++ ")" :=
  ⟨⟨rfl, rfl, rfl, rfl, rfl⟩,
   (apiError_rendering (-32603) "Internal error" "Stack trace here").2.1 (by decide)⟩

/-! The construction of an API error -/

/-- C12: `NewAPIError` copies the code and the message of the raw error; the details are
empty when the raw error carries no data payload, and when it carries the payload v they
are the canonical text of v, as the encoder gives it. -/
theorem newAPIError_fields (canonicalText : JSON → String) (r : JSONRPCError) :
    (NewAPIError canonicalText r).Code = r.Code ∧
    (NewAPIError canonicalText r).Message = r.Message ∧
    (r.Data = none → (NewAPIError canonicalText r).Details = "") ∧
    (∀ v, r.Data = some v → (NewAPIError canonicalText r).Details = canonicalText v) := by
  refine ⟨rfl, rfl, ?_, ?_⟩
  · intro h
    simp [NewAPIError, h]
  · intro v h
    simp [NewAPIError, h]

/-- Witness of C12: the two rows of `TestNewAPIError`, the payload of the second being the
string `extra info`. -/
theorem newAPIError_fields_witness :
    (NewAPIError compactText { Code := -32600, Message := "Invalid Request", Data := none } =
        { Code := -32600, Message := "Invalid Request", Details := "" } ∧
     compactText (JSON.str "extra info") = "\"extra info\"" ∧
     (NewAPIError compactText
        { Code := -32602, Message := "Invalid params"
          Data := some (JSON.str "extra info") }).Code = -32602) ∧
    (NewAPIError compactText
        { Code := -32602, Message := "Invalid params"
          Data := some (JSON.str "extra info") }).Details = "\"extra info\"" :=
  ⟨⟨rfl, rfl, rfl⟩,
   (newAPIError_fields compactText
      { Code := -32602, Message := "Invalid params"
        Data := some (JSON.str "extra info") }).2.2.2 (JSON.str "extra info") rfl⟩

/-! Docker: what the polling loop returns -/

theorem loop_at_deadline (R : Remote) (deadline pollInterval n : Nat) (w : World)
    (h : deadline < w.now) :
    waitForRunningLoop R deadline pollInterval (n + 1) w = some (some timeoutError, w) := by
  simp [waitForRunningLoop, h, timeoutError]

theorem loop_running (R : Remote) (deadline pollInterval n : Nat) (w : World)
    (h : w.now ≤ deadline) (hp : pollRunning R w = true) :
    waitForRunningLoop R deadline pollInterval (n + 1) w =
      some (none, (Call R w "docker.status" [] unmarshalMap).2) := by
  have h0 : ¬ deadline < w.now := by omega
  unfold waitForRunningLoop
  simp only [gt_iff_lt, h0, if_false]
  unfold pollRunning at hp
  rcases hc : Call R w "docker.status" [] unmarshalMap with ⟨_ | status, w1⟩
  · rw [hc] at hp
    simp at hp
  · rw [hc] at hp
    simp only [decide_eq_true_eq] at hp
    simp [hp]

theorem loop_retry (R : Remote) (deadline n : Nat) (w : World)
    (h : w.now ≤ deadline) (hp : pollRunning R w = false) :
    waitForRunningLoop R deadline (2 * second) (n + 1) w =
      waitForRunningLoop R deadline (2 * second) n (nextHead R w) := by
  have h0 : ¬ deadline < w.now := by omega
  unfold nextHead
  conv_lhs => unfold waitForRunningLoop
  simp only [gt_iff_lt, h0, if_false]
  unfold pollRunning at hp
  rcases hc : Call R w "docker.status" [] unmarshalMap with ⟨_ | status, w1⟩
  · rfl
  · rw [hc] at hp
    simp only [decide_eq_false_iff_not] at hp
    simp [hp]

theorem now_nextHead (R : Remote) (w : World) : w.now + 2 * second ≤ (nextHead R w).now := by
  have h1 := now_Call R w "docker.status" [] unmarshalMap
  have h2 := now_Sleep R (Call R w "docker.status" [] unmarshalMap).2 (2 * second)
  unfold nextHead
  omega

theorem ops_nextHead (R : Remote) (w : World) :
    ops (nextHead R w) = ops w ++ [Op.call "docker.status" [], Op.sleep (2 * second)] := by
  simp [nextHead, Sleep, ops, Call]

theorem now_loopHead (R : Remote) : ∀ (i : Nat) (w : World), w.now ≤ (loopHead R w i).now := by
  intro i
  induction i with
  | zero => intro w; exact Nat.le_refl _
  | succ i ih =>
    intro w
    have h1 := now_nextHead R w
    have h2 := ih (nextHead R w)
    simp only [loopHead]
    omega

theorem loopHead_succ (R : Remote) : ∀ (i : Nat) (w : World),
    loopHead R w (i + 1) = nextHead R (loopHead R w i) := by
  intro i
  induction i with
  | zero => intro w; rfl
  | succ i ih =>
    intro w
    have h := ih (nextHead R w)
    simp only [loopHead] at h ⊢
    exact h

theorem now_loopHead_mono (R : Remote) (w : World) {i j : Nat} (h : i ≤ j) :
    (loopHead R w i).now ≤ (loopHead R w j).now := by
  induction h with
  | refl => exact Nat.le_refl _
  | @step k _ ih =>
    rw [loopHead_succ]
    have := now_nextHead R (loopHead R w k)
    omega

theorem loop_outcome (R : Remote) (deadline : Nat) :
    ∀ (n : Nat) (w : World) (r : Option GoError) (w' : World),
      waitForRunningLoop R deadline (2 * second) n w = some (r, w') →
      (r = none ∧ ∃ i, endsRunningAt R deadline w w' i) ∨
      (r = some timeoutError ∧ ∃ i, endsTimedOutAt R deadline w w' i) := by
  intro n
  induction n with
  | zero =>
    intro w r w' h
    simp [waitForRunningLoop] at h
  | succ n ih =>
    intro w r w' h
    by_cases h0 : deadline < w.now
    · rw [loop_at_deadline R deadline _ n w h0] at h
      cases h
      exact Or.inr ⟨rfl, 0, fun j hj => absurd hj (Nat.not_lt_zero j), h0, rfl⟩
    · have hle : w.now ≤ deadline := by omega
      cases hp : pollRunning R w with
      | true =>
        rw [loop_running R deadline _ n w hle hp] at h
        cases h
        exact Or.inl ⟨rfl, 0, fun j hj => absurd hj (Nat.not_lt_zero j), hle, hp, rfl⟩
      | false =>
        rw [loop_retry R deadline n w hle hp] at h
        have before : ∀ i, (∀ j, j < i → (loopHead R (nextHead R w) j).now ≤ deadline ∧
            pollRunning R (loopHead R (nextHead R w) j) = false) →
            ∀ j, j < i + 1 → (loopHead R w j).now ≤ deadline ∧
              pollRunning R (loopHead R w j) = false := by
          intro i hi j hj
          cases j with
          | zero => exact ⟨hle, hp⟩
          | succ j => exact hi j (by omega)
        rcases ih (nextHead R w) r w' h with ⟨hr, i, hb, h1, h2, h3⟩ | ⟨hr, i, hb, h1, h2⟩
        · exact Or.inl ⟨hr, i + 1, before i hb, h1, h2, h3⟩
        · exact Or.inr ⟨hr, i + 1, before i hb, h1, h2⟩

theorem running_iff_of_outcome (R : Remote) (deadline : Nat) (w w' : World)
    (r : Option GoError)
    (h : (r = none ∧ ∃ i, endsRunningAt R deadline w w' i) ∨
      (r = some timeoutError ∧ ∃ i, endsTimedOutAt R deadline w w' i)) :
    r = none ↔
      ∃ i, (loopHead R w i).now ≤ deadline ∧ pollRunning R (loopHead R w i) = true := by
  constructor
  · intro hr
    rcases h with ⟨-, i, -, h1, h2, -⟩ | ⟨hr', -⟩
    · exact ⟨i, h1, h2⟩
    · rw [hr] at hr'
      cases hr'
  · rintro ⟨i, h1, h2⟩
    rcases h with ⟨hr, -⟩ | ⟨-, k, hb, hk, -⟩
    · exact hr
    · exfalso
      by_cases hik : i < k
      · have := (hb i hik).2
        rw [h2] at this
        cases this
      · have := now_loopHead_mono R w (Nat.le_of_not_lt hik)
        omega

/-- C13: with enough fuel `waitForRunning` returns, and it returns success exactly when the
poll at some loop head within the five-minute deadline succeeds with the status RUNNING.
It ends either at the first such head, right after that poll, or with the timeout error at
the first head past the deadline, in the world of that head (no poll is issued there); the
polls of the heads before did not report RUNNING, and each of them is followed by one
sleep of two seconds and the next head. -/
theorem waitForRunning_polling (R : Remote) (fuel : Nat) (w : World) (hfuel : 152 ≤ fuel) :
    ∃ r w', waitForRunning R fuel w = some (r, w') ∧
      (r = none ↔
        ∃ i, (loopHead R w i).now ≤ w.now + 5 * minute ∧
          pollRunning R (loopHead R w i) = true) ∧
      ((r = none ∧ ∃ i, endsRunningAt R (w.now + 5 * minute) w w' i) ∨
        (r = some timeoutError ∧ ∃ i, endsTimedOutAt R (w.now + 5 * minute) w w' i)) ∧
      (∀ i, ops (loopHead R w (i + 1)) =
          ops (loopHead R w i) ++ [Op.call "docker.status" [], Op.sleep 2000000000] ∧
        (loopHead R w i).now + 2000000000 ≤ (loopHead R w (i + 1)).now) := by
  obtain ⟨⟨r, w'⟩, hr⟩ := waitForRunning_returns R fuel w hfuel
  have hout := loop_outcome R (w.now + 5 * minute) fuel w r w' hr
  refine ⟨r, w', hr, running_iff_of_outcome R _ w w' r hout, hout, ?_⟩
  intro i
  rw [loopHead_succ]
  have h1 := ops_nextHead R (loopHead R w i)
  have h2 := now_nextHead R (loopHead R w i)
  simp only [second] at h1 h2
  exact ⟨h1, h2⟩

/-- Witness of C13: INITIALIZING, a failed poll, then RUNNING; the wait returns success
after three polls and two sleeps, four seconds after it started. -/
theorem waitForRunning_polling_witness :
    (waitForRunning warmingUp 152 World.start).map (fun out => (out.1.isNone, out.2.now)) =
      some (true, 4000000000) ∧
    (waitForRunning warmingUp 152 World.start).map (fun out => ops out.2) =
      some [Op.call "docker.status" [], Op.sleep 2000000000,
            Op.call "docker.status" [], Op.sleep 2000000000,
            Op.call "docker.status" []] ∧
    ∃ r w', waitForRunning warmingUp 152 World.start = some (r, w') ∧
      (r = none ↔
        ∃ i, (loopHead warmingUp World.start i).now ≤ World.start.now + 5 * minute ∧
          pollRunning warmingUp (loopHead warmingUp World.start i) = true) ∧
      ((r = none ∧
          ∃ i, endsRunningAt warmingUp (World.start.now + 5 * minute) World.start w' i) ∨
        (r = some timeoutError ∧
          ∃ i, endsTimedOutAt warmingUp (World.start.now + 5 * minute) World.start w' i)) ∧
      (∀ i, ops (loopHead warmingUp World.start (i + 1)) =
          ops (loopHead warmingUp World.start i) ++
            [Op.call "docker.status" [], Op.sleep 2000000000] ∧
        (loopHead warmingUp World.start i).now + 2000000000 ≤
          (loopHead warmingUp World.start (i + 1)).now) :=
  ⟨rfl, rfl, waitForRunning_polling warmingUp 152 World.start (Nat.le_refl _)⟩

/-! Docker: the polling loop and a cancelled context -/

theorem pollRunning_cancelled (R : Remote) (w : World)
    (h : (R w (Op.call "docker.status" [])).result =
      Except.error (GoError.other "context canceled")) :
    pollRunning R w = false := by
  simp [pollRunning, Call, h]

set_option maxRecDepth 100000 in
/-- Counterexample to C14: the context is cancelled before the wait starts, so that every
poll fails at once with the error of the context.  The loop does not return within one
poll interval: it issues 151 polls, each followed by the sleep of two seconds, and returns
the timeout error 302 seconds later. -/
theorem waitForRunning_polls_on_when_cancelled :
    (cancelledContext World.start (Op.call "docker.status" [])).result =
      Except.error (GoError.other "context canceled") ∧
    (waitForRunning cancelledContext 152 World.start).map (fun out => out.1) =
      some (some timeoutError) ∧
    (waitForRunning cancelledContext 152 World.start).map
        (fun out => (out.2.now, callCount out.2, out.2.trace.length)) =
      some (302000000000, 151, 302) :=
  ⟨rfl, rfl, rfl⟩

/-- C14, amended: `waitForRunning` does not observe the cancellation of the context.  When
the wait is still going at loop head k, within the deadline, and the context is cancelled
from then on, the poll at head k is issued all the same, every later poll fails and is
followed by the sleep of two seconds, and the wait returns only the timeout error, at the
first loop head past the five-minute deadline. -/
theorem waitForRunning_ignores_cancellation (R : Remote) (fuel : Nat) (w : World) (k : Nat)
    (hfuel : 152 ≤ fuel)
    (hgoing : ∀ j, j < k → (loopHead R w j).now ≤ w.now + 5 * minute ∧
      pollRunning R (loopHead R w j) = false)
    (hk : (loopHead R w k).now ≤ w.now + 5 * minute)
    (hcancel : cancelledFrom R (loopHead R w k).now) :
    ∃ w' i, waitForRunning R fuel w = some (some timeoutError, w') ∧
      endsTimedOutAt R (w.now + 5 * minute) w w' i ∧ k < i ∧
      w.now + 5 * minute < w'.now := by
  obtain ⟨⟨r, w'⟩, hr⟩ := waitForRunning_returns R fuel w hfuel
  have hout := loop_outcome R (w.now + 5 * minute) fuel w r w' hr
  have hfalse : ∀ i, k ≤ i → pollRunning R (loopHead R w i) = false := by
    intro i hi
    apply pollRunning_cancelled
    exact hcancel _ _ _ (now_loopHead_mono R w hi)
  rcases hout with ⟨-, i, hb, h1, h2, -⟩ | ⟨hr', i, hb, h1, h2⟩
  · exfalso
    by_cases hik : i < k
    · have := (hgoing i hik).2
      rw [h2] at this
      cases this
    · have := hfalse i (Nat.le_of_not_lt hik)
      rw [h2] at this
      cases this
  · subst hr'
    refine ⟨w', i, hr, ⟨hb, h1, h2⟩, ?_, ?_⟩
    · by_contra hik
      have := now_loopHead_mono R w (Nat.le_of_not_lt hik)
      omega
    · rw [h2]
      exact h1

/-- Witness of C14, amended: the context cancelled before the wait starts. -/
theorem waitForRunning_ignores_cancellation_witness :
    cancelledFrom cancelledContext (loopHead cancelledContext World.start 0).now ∧
    ∃ w' i, waitForRunning cancelledContext 152 World.start = some (some timeoutError, w') ∧
      endsTimedOutAt cancelledContext (World.start.now + 5 * minute) World.start w' i ∧
      0 < i ∧ World.start.now + 5 * minute < w'.now :=
  ⟨fun _ _ _ _ => rfl,
   waitForRunning_ignores_cancellation cancelledContext 152 World.start 0 (Nat.le_refl _)
     (fun j hj => absurd hj (Nat.not_lt_zero j)) (by decide) (fun _ _ _ _ => rfl)⟩

/-! The NFS read-back and the bindip array -/

theorem mapConfig_panics_iff (config : GoMap) (model : ServiceNFSResourceModel) :
    (∃ msg, mapConfig config model = Completion.panicked msg) ↔
      ∃ xs, asSlice (lookupKey "bindip" config) = some xs ∧ assertStrings xs = none := by
  unfold mapConfig
  cases h1 : asSlice (lookupKey "bindip" config) with
  | none => simp
  | some xs =>
    cases h2 : assertStrings xs with
    | none => simp [h2]
    | some ips => simp [h2]

theorem assertStrings_strings (ss : List String) :
    assertStrings (ss.map JSON.str) = some ss := by
  induction ss with
  | nil => rfl
  | cons s rest ih => simp [assertStrings, ih]

/-- C15 at the failing input: the config object reports bindip as the array of the string
`10.0.0.5` and the number 7.  The mapping of the config panics at the type assertion
`ip.(string)`; so does the read-back on a remote that sends this config and on which all
three calls succeed, and the read that runs it does not return. -/
theorem nfs_readback_panics_on_bindip :
    mapConfig [("servers", JSON.num 4),
               ("bindip", JSON.arr [JSON.str "10.0.0.5", JSON.num 7])] (nfsModel Attr.null) =
      Completion.panicked "interface conversion: interface is not string" ∧
    (readService looseBindip World.start (nfsModel Attr.null)).1 =
      Completion.panicked "interface conversion: interface is not string" ∧
    (readService looseBindip World.start (nfsModel Attr.null)).2.trace =
      [{ op := Op.call "nfs.config" [], err := none },
       { op := Op.call "service.query" [nfsFilter], err := none },
       { op := Op.call "service.query" [nfsFilter], err := none }] ∧
    (ServiceNFSResource.Read looseBindip World.start
        { value := nfsModel Attr.null, getDiags := [] }).1 =
      Completion.panicked "interface conversion: interface is not string" :=
  ⟨rfl, rfl, rfl, rfl⟩

/-- The same config with bindip made of strings only: the mapping returns and the model
holds the two addresses. -/
theorem nfs_mapConfig_string_bindip :
    mapConfig [("servers", JSON.num 4),
               ("bindip", JSON.arr [JSON.str "10.0.0.5", JSON.str "10.0.0.6"])]
        (nfsModel Attr.null) =
      Completion.returned
        { nfsModel Attr.null with
          Servers := Attr.known 4
          Bindip := Attr.known [Attr.known "10.0.0.5", Attr.known "10.0.0.6"] } := by
  rfl

end Trueform
